import Mathlib

/-!
Verification of the lumberbarons/modbus library (Go) against its
natural-language specification.

The development shallowly embeds the protocol-plane code: machine bytes are
`Nat` values below 256, 16-bit machine words are `Nat` values below 65536
(with explicit `% 65536` wherever Go's `uint16` conversions can wrap),
byte strings are `List Nat`, fallible operations return `Except`/`Option`,
and the simulator's four register banks are total functions from addresses
to values (the Go arrays of fixed size 65536).  Go's `float64` quantities
(timeout probabilities, jitter arithmetic) are embedded as rationals and the
random samples drawn by `math/rand` are passed in as explicit parameters.
-/

namespace Modbus

/-- Big-endian 16-bit read: `binary.BigEndian.Uint16([hi, lo])`. -/
def be16 (hi lo : Nat) : Nat := hi * 256 + lo

/-- `ProtocolDataUnit` from the modbus package: function code plus data bytes. -/
structure PDU where
  functionCode : Nat
  data : List Nat
deriving Repr, DecidableEq

/-! ## Simulator datastore (internal/simulator/datastore.go) -/

/-- One of the four Modbus register banks (`RegisterType` in datastore.go). -/
inductive RegisterType where
  | coil
  | discreteInput
  | holdingReg
  | inputReg
deriving Repr, DecidableEq

/-- `DelayConfig` from datastore.go.  The Go struct stores the base delay as a
duration string parsed with `time.ParseDuration` at use site; the embedding
stores the parse result directly: `none` models both the empty string and an
unparsable string (both mean "no delay" in `ApplyDelayWithOptions`), and
`some d` models a string parsing to `d` nanoseconds (as a rational). -/
structure DelayConfig where
  delay : Option ℚ
  jitter : Int
  timeoutProbability : ℚ
deriving Repr, DecidableEq

/-- `DelayConfigSet` from datastore.go: global per-type defaults plus one
per-address override map per bank.  Go maps are embedded as functions into
`Option`. -/
structure DelayConfigSet where
  global : RegisterType → Option DelayConfig
  coils : Nat → Option DelayConfig
  discreteInputs : Nat → Option DelayConfig
  holdingRegs : Nat → Option DelayConfig
  inputRegs : Nat → Option DelayConfig

/-- `DataStore` from datastore.go: four banks of 65536 entries each (embedded
as total functions on addresses; Go indexes them with `uint16` values) and the
delay configuration. The name-metadata maps do not affect any verified
behavior and are omitted. -/
structure DataStore where
  coils : Nat → Bool
  discreteInputs : Nat → Bool
  holdingRegs : Nat → Nat
  inputRegs : Nat → Nat
  delayConfig : Option DelayConfigSet

/-- `maxAddress` from datastore.go. -/
def maxAddress : Nat := 65536

/-- `DataStore.validateRange`: `quantity` must be positive and
`uint32(address)+uint32(quantity)` must not exceed 65536.  Both arguments are
`uint16` values (< 65536), so the widened 32-bit sum in the Go source is the
exact natural-number sum embedded here. -/
def validateRange (address quantity : Nat) : Option String :=
  if quantity = 0 then some "quantity must be greater than 0"
  else if address + quantity > maxAddress then some "address range exceeds maximum"
  else none

/-- The Go write loops `for i := 0; i < q; i++ { bank[address+i] = values[i] }`
as sequential single-cell stores. -/
def writeSeq {α : Type} (f : Nat → α) (address : Nat) (values : List α) : Nat → α :=
  match values with
  | [] => f
  | v :: rest => writeSeq (fun a => if a = address then v else f a) (address + 1) rest

/-- `DataStore.ReadCoils`. -/
def DataStore.ReadCoils (ds : DataStore) (address quantity : Nat) :
    Except String (List Bool) :=
  match validateRange address quantity with
  | some e => .error e
  | none => .ok ((List.range quantity).map fun i => ds.coils (address + i))

/-- `DataStore.ReadDiscreteInputs`. -/
def DataStore.ReadDiscreteInputs (ds : DataStore) (address quantity : Nat) :
    Except String (List Bool) :=
  match validateRange address quantity with
  | some e => .error e
  | none => .ok ((List.range quantity).map fun i => ds.discreteInputs (address + i))

/-- `DataStore.ReadHoldingRegisters`. -/
def DataStore.ReadHoldingRegisters (ds : DataStore) (address quantity : Nat) :
    Except String (List Nat) :=
  match validateRange address quantity with
  | some e => .error e
  | none => .ok ((List.range quantity).map fun i => ds.holdingRegs (address + i))

/-- `DataStore.ReadInputRegisters`. -/
def DataStore.ReadInputRegisters (ds : DataStore) (address quantity : Nat) :
    Except String (List Nat) :=
  match validateRange address quantity with
  | some e => .error e
  | none => .ok ((List.range quantity).map fun i => ds.inputRegs (address + i))

/-- `DataStore.WriteSingleCoil` (never returns an error in the source). -/
def DataStore.WriteSingleCoil (ds : DataStore) (address : Nat) (value : Bool) :
    Except String DataStore :=
  .ok { ds with coils := fun a => if a = address then value else ds.coils a }

/-- `DataStore.WriteMultipleCoils`: `quantity := uint16(len(values))` (the Go
conversion truncates modulo 65536), validate, then write the loop. The range
check happens before any store, mirroring the source order. -/
def DataStore.WriteMultipleCoils (ds : DataStore) (address : Nat) (values : List Bool) :
    Except String DataStore :=
  let quantity := values.length % 65536
  match validateRange address quantity with
  | some e => .error e
  | none => .ok { ds with coils := writeSeq ds.coils address (values.take quantity) }

/-- `DataStore.WriteSingleRegister` (never returns an error in the source). -/
def DataStore.WriteSingleRegister (ds : DataStore) (address value : Nat) :
    Except String DataStore :=
  .ok { ds with holdingRegs := fun a => if a = address then value else ds.holdingRegs a }

/-- `DataStore.WriteMultipleRegisters`: same shape as `WriteMultipleCoils` on
the holding-register bank. -/
def DataStore.WriteMultipleRegisters (ds : DataStore) (address : Nat) (values : List Nat) :
    Except String DataStore :=
  let quantity := values.length % 65536
  match validateRange address quantity with
  | some e => .error e
  | none => .ok { ds with holdingRegs := writeSeq ds.holdingRegs address (values.take quantity) }

/-- `DataStore.MaskWriteRegister`:
`result = (current AND andMask) OR (orMask AND (NOT andMask))`, where `^x` on
`uint16` is embedded as `x ^^^ 65535`.  The source unconditionally returns
`nil` for the error. -/
def DataStore.MaskWriteRegister (ds : DataStore) (address andMask orMask : Nat) :
    Except String DataStore :=
  let current := ds.holdingRegs address
  let result := (current &&& andMask) ||| (orMask &&& (andMask ^^^ 65535))
  .ok { ds with holdingRegs := fun a => if a = address then result else ds.holdingRegs a }

/-! ## Server dispatcher (internal/simulator handler) -/

/-- LSB-first packing of one group of up to eight coil bits into a byte:
bit `i` of the group contributes `2 ^ i`. -/
def packByte (bits : List Bool) : Nat :=
  bits.foldr (fun b acc => (if b then 1 else 0) + 2 * acc) 0

/-- The data bytes produced by the packing loop of `boolsToBytes`: byte `j`
collects bits `8*j .. 8*j+7` (`result[i/8+1] |= 1 << uint(i%8)`). -/
def packBytes (values : List Bool) : List Nat :=
  (List.range ((values.length + 7) / 8)).map fun j => packByte ((values.drop (8 * j)).take 8)

/-- `boolsToBytes` from the handler: `byteCount = (len+7)/8` is prepended as a
single byte (`byte(byteCount)` truncates modulo 256), followed by the
LSB-first packed bits. -/
def boolsToBytes (values : List Bool) : List Nat :=
  ((values.length + 7) / 8) % 256 :: packBytes values

/-- `bytesToBools` from the handler: bit `i mod 8` of byte `i div 8`
(`data[i/8] & (1 << uint(i%8)) != 0`), for `quantity` bits. -/
def bytesToBools (data : List Nat) (quantity : Nat) : List Bool :=
  (List.range quantity).map fun i => (data.getD (i / 8) 0) &&& (1 <<< (i % 8)) ≠ 0

/-- `registersToBytes` from the handler: byte count `2*len` (truncated to a
byte) followed by each register big-endian. -/
def registersToBytes (registers : List Nat) : List Nat :=
  (registers.length * 2) % 256 :: registers.flatMap fun reg => [reg / 256 % 256, reg % 256]

/-- `bytesToRegisters` from the handler: consecutive big-endian byte pairs. -/
def bytesToRegisters (data : List Nat) : List Nat :=
  (List.range (data.length / 2)).map fun i => be16 (data.getD (i * 2) 0) (data.getD (i * 2 + 1) 0)

/-- `newExceptionResponse`: sets the high bit of the function code and carries
the exception code as the single data byte. -/
def newExceptionResponse (functionCode exceptionCode : Nat) : PDU :=
  ⟨functionCode ||| 0x80, [exceptionCode]⟩

/-- `handleReadCoils`. -/
def handleReadCoils (ds : DataStore) (req : PDU) : PDU :=
  if req.data.length < 4 then newExceptionResponse req.functionCode 3
  else
    let address := be16 (req.data.getD 0 0) (req.data.getD 1 0)
    let quantity := be16 (req.data.getD 2 0) (req.data.getD 3 0)
    if quantity < 1 ∨ quantity > 2000 then newExceptionResponse req.functionCode 3
    else
      match ds.ReadCoils address quantity with
      | .error _ => newExceptionResponse req.functionCode 2
      | .ok coils => ⟨req.functionCode, boolsToBytes coils⟩

/-- `handleReadDiscreteInputs`. -/
def handleReadDiscreteInputs (ds : DataStore) (req : PDU) : PDU :=
  if req.data.length < 4 then newExceptionResponse req.functionCode 3
  else
    let address := be16 (req.data.getD 0 0) (req.data.getD 1 0)
    let quantity := be16 (req.data.getD 2 0) (req.data.getD 3 0)
    if quantity < 1 ∨ quantity > 2000 then newExceptionResponse req.functionCode 3
    else
      match ds.ReadDiscreteInputs address quantity with
      | .error _ => newExceptionResponse req.functionCode 2
      | .ok inputs => ⟨req.functionCode, boolsToBytes inputs⟩

/-- `handleReadHoldingRegisters`. -/
def handleReadHoldingRegisters (ds : DataStore) (req : PDU) : PDU :=
  if req.data.length < 4 then newExceptionResponse req.functionCode 3
  else
    let address := be16 (req.data.getD 0 0) (req.data.getD 1 0)
    let quantity := be16 (req.data.getD 2 0) (req.data.getD 3 0)
    if quantity < 1 ∨ quantity > 125 then newExceptionResponse req.functionCode 3
    else
      match ds.ReadHoldingRegisters address quantity with
      | .error _ => newExceptionResponse req.functionCode 2
      | .ok registers => ⟨req.functionCode, registersToBytes registers⟩

/-- `handleReadInputRegisters`. -/
def handleReadInputRegisters (ds : DataStore) (req : PDU) : PDU :=
  if req.data.length < 4 then newExceptionResponse req.functionCode 3
  else
    let address := be16 (req.data.getD 0 0) (req.data.getD 1 0)
    let quantity := be16 (req.data.getD 2 0) (req.data.getD 3 0)
    if quantity < 1 ∨ quantity > 125 then newExceptionResponse req.functionCode 3
    else
      match ds.ReadInputRegisters address quantity with
      | .error _ => newExceptionResponse req.functionCode 2
      | .ok registers => ⟨req.functionCode, registersToBytes registers⟩

/-- `handleWriteSingleCoil` (echoes the request data on success). -/
def handleWriteSingleCoil (ds : DataStore) (req : PDU) : PDU × DataStore :=
  if req.data.length < 4 then (newExceptionResponse req.functionCode 3, ds)
  else
    let address := be16 (req.data.getD 0 0) (req.data.getD 1 0)
    let value := be16 (req.data.getD 2 0) (req.data.getD 3 0)
    if value ≠ 0x0000 ∧ value ≠ 0xFF00 then (newExceptionResponse req.functionCode 3, ds)
    else
      match ds.WriteSingleCoil address (value = 0xFF00) with
      | .error _ => (newExceptionResponse req.functionCode 2, ds)
      | .ok ds' => (⟨req.functionCode, req.data⟩, ds')

/-- `handleWriteSingleRegister` (echoes the request data on success). -/
def handleWriteSingleRegister (ds : DataStore) (req : PDU) : PDU × DataStore :=
  if req.data.length < 4 then (newExceptionResponse req.functionCode 3, ds)
  else
    let address := be16 (req.data.getD 0 0) (req.data.getD 1 0)
    let value := be16 (req.data.getD 2 0) (req.data.getD 3 0)
    match ds.WriteSingleRegister address value with
    | .error _ => (newExceptionResponse req.functionCode 2, ds)
    | .ok ds' => (⟨req.functionCode, req.data⟩, ds')

/-- `handleWriteMultipleCoils`. -/
def handleWriteMultipleCoils (ds : DataStore) (req : PDU) : PDU × DataStore :=
  if req.data.length < 5 then (newExceptionResponse req.functionCode 3, ds)
  else
    let address := be16 (req.data.getD 0 0) (req.data.getD 1 0)
    let quantity := be16 (req.data.getD 2 0) (req.data.getD 3 0)
    let byteCount := req.data.getD 4 0
    if quantity < 1 ∨ quantity > 1968 then (newExceptionResponse req.functionCode 3, ds)
    else
      let expectedByteCount := (quantity + 7) / 8
      if byteCount ≠ expectedByteCount ∨ req.data.length < 5 + byteCount then
        (newExceptionResponse req.functionCode 3, ds)
      else
        let coils := bytesToBools ((req.data.drop 5).take byteCount) quantity
        match ds.WriteMultipleCoils address coils with
        | .error _ => (newExceptionResponse req.functionCode 2, ds)
        | .ok ds' =>
            (⟨req.functionCode,
              [address / 256 % 256, address % 256, quantity / 256 % 256, quantity % 256]⟩, ds')

/-- `handleWriteMultipleRegisters` (`byte(quantity*2)` truncates modulo 256). -/
def handleWriteMultipleRegisters (ds : DataStore) (req : PDU) : PDU × DataStore :=
  if req.data.length < 5 then (newExceptionResponse req.functionCode 3, ds)
  else
    let address := be16 (req.data.getD 0 0) (req.data.getD 1 0)
    let quantity := be16 (req.data.getD 2 0) (req.data.getD 3 0)
    let byteCount := req.data.getD 4 0
    if quantity < 1 ∨ quantity > 123 then (newExceptionResponse req.functionCode 3, ds)
    else if byteCount ≠ quantity * 2 % 256 ∨ req.data.length < 5 + byteCount then
      (newExceptionResponse req.functionCode 3, ds)
    else
      let registers := bytesToRegisters ((req.data.drop 5).take byteCount)
      match ds.WriteMultipleRegisters address registers with
      | .error _ => (newExceptionResponse req.functionCode 2, ds)
      | .ok ds' =>
          (⟨req.functionCode,
            [address / 256 % 256, address % 256, quantity / 256 % 256, quantity % 256]⟩, ds')

/-- `handleMaskWriteRegister` (echoes the request data on success). -/
def handleMaskWriteRegister (ds : DataStore) (req : PDU) : PDU × DataStore :=
  if req.data.length < 6 then (newExceptionResponse req.functionCode 3, ds)
  else
    let address := be16 (req.data.getD 0 0) (req.data.getD 1 0)
    let andMask := be16 (req.data.getD 2 0) (req.data.getD 3 0)
    let orMask := be16 (req.data.getD 4 0) (req.data.getD 5 0)
    match ds.MaskWriteRegister address andMask orMask with
    | .error _ => (newExceptionResponse req.functionCode 2, ds)
    | .ok ds' => (⟨req.functionCode, req.data⟩, ds')

/-- `handleReadWriteMultipleRegisters` (write first, then read). -/
def handleReadWriteMultipleRegisters (ds : DataStore) (req : PDU) : PDU × DataStore :=
  if req.data.length < 9 then (newExceptionResponse req.functionCode 3, ds)
  else
    let readAddress := be16 (req.data.getD 0 0) (req.data.getD 1 0)
    let readQuantity := be16 (req.data.getD 2 0) (req.data.getD 3 0)
    let writeAddress := be16 (req.data.getD 4 0) (req.data.getD 5 0)
    let writeQuantity := be16 (req.data.getD 6 0) (req.data.getD 7 0)
    let writeByteCount := req.data.getD 8 0
    if readQuantity < 1 ∨ readQuantity > 125 then (newExceptionResponse req.functionCode 3, ds)
    else if writeQuantity < 1 ∨ writeQuantity > 121 then
      (newExceptionResponse req.functionCode 3, ds)
    else if writeByteCount ≠ writeQuantity * 2 % 256 ∨ req.data.length < 9 + writeByteCount then
      (newExceptionResponse req.functionCode 3, ds)
    else
      let writeRegisters := bytesToRegisters ((req.data.drop 9).take writeByteCount)
      match ds.WriteMultipleRegisters writeAddress writeRegisters with
      | .error _ => (newExceptionResponse req.functionCode 2, ds)
      | .ok ds' =>
          match ds'.ReadHoldingRegisters readAddress readQuantity with
          | .error _ => (newExceptionResponse req.functionCode 2, ds')
          | .ok readRegisters => (⟨req.functionCode, registersToBytes readRegisters⟩, ds')

/-- `Handler.HandleRequest`: dispatch on the function code; FIFO queue and
unknown codes yield an IllegalFunction exception. -/
def HandleRequest (ds : DataStore) (req : PDU) : PDU × DataStore :=
  match req.functionCode with
  | 1 => (handleReadCoils ds req, ds)
  | 2 => (handleReadDiscreteInputs ds req, ds)
  | 3 => (handleReadHoldingRegisters ds req, ds)
  | 4 => (handleReadInputRegisters ds req, ds)
  | 5 => handleWriteSingleCoil ds req
  | 6 => handleWriteSingleRegister ds req
  | 15 => handleWriteMultipleCoils ds req
  | 16 => handleWriteMultipleRegisters ds req
  | 22 => handleMaskWriteRegister ds req
  | 23 => handleReadWriteMultipleRegisters ds req
  | 24 => (newExceptionResponse req.functionCode 1, ds)
  | _ => (newExceptionResponse req.functionCode 1, ds)

/-! ## Delay and timeout injection (datastore.go) -/

/-- `DataStore.GetDelayConfig`: the per-address override for the bank wins;
otherwise fall back to the global default for the register type; absence of
any configuration yields `none`. -/
def GetDelayConfig (ds : DataStore) (regType : RegisterType) (address : Nat) :
    Option DelayConfig :=
  match ds.delayConfig with
  | none => none
  | some s =>
    let addressConfig :=
      match regType with
      | .coil => s.coils address
      | .discreteInput => s.discreteInputs address
      | .holdingReg => s.holdingRegs address
      | .inputReg => s.inputRegs address
    match addressConfig with
    | some cfg => some cfg
    | none => s.global regType

/-- `DataStore.ApplyDelayWithOptions`, embedded as a pure function.  The two
`rand.Float64()` samples it draws (first for the timeout decision, then for
the jitter) are passed in as rationals in `[0, 1)`.  The result is the Go
return value (`true` = proceed, `false` = simulate a timeout by not
responding) paired with the duration actually slept (0 when no sleep
happens). -/
def ApplyDelayWithOptions (cfg? : Option DelayConfig) (disableTimeout : Bool)
    (randTimeout randJitter : ℚ) : Bool × ℚ :=
  match cfg? with
  | none => (true, 0)
  | some cfg =>
    if ¬disableTimeout ∧ cfg.timeoutProbability > 0 ∧ randTimeout < cfg.timeoutProbability then
      (false, 0)
    else
      match cfg.delay with
      | none => (true, 0)
      | some baseDuration =>
        let delay :=
          if 0 < cfg.jitter ∧ cfg.jitter ≤ 100 then
            let jitterRange := baseDuration * ((cfg.jitter : ℚ) / 100)
            let jitterAmount := (randJitter * 2 - 1) * jitterRange
            let jittered := baseDuration + jitterAmount
            if jittered < 0 then 0 else jittered
          else baseDuration
        (true, if delay > 0 then delay else 0)

/-- The register bank addressed by a request function code (reads and writes
of coils: 1, 5, 15; discrete inputs: 2; holding registers: 3, 6, 16, 22, 23;
input registers: 4).  Other function codes address no bank. -/
def requestRegType (functionCode : Nat) : Option RegisterType :=
  match functionCode with
  | 1 => some .coil
  | 5 => some .coil
  | 15 => some .coil
  | 2 => some .discreteInput
  | 3 => some .holdingReg
  | 6 => some .holdingReg
  | 16 => some .holdingReg
  | 22 => some .holdingReg
  | 23 => some .holdingReg
  | 4 => some .inputReg
  | _ => none

/-- Modelled from the spec: the dispatcher's delay/timeout-injection step
(spec section 4.8 step 4). The call site wiring `ApplyDelayWithOptions` into
request handling is absent from the available sources (only its tests, the
`DataStore` methods it calls, and the TCP server's nil-response check are
present), so it is reconstructed here from the spec's words: resolve the
policy for the addressed register type and address, return the "no response"
sentinel (`none`) when the timeout probability triggers (TCP passes
`disableTimeout = false`, RTU/ASCII pass `true`), otherwise sleep the
(jitter-perturbed) delay and answer with the dispatcher's response.  The
returned triple is (response sentinel, duration slept, updated store). -/
def HandleRequestWithDelay (ds : DataStore) (disableTimeout : Bool)
    (randTimeout randJitter : ℚ) (req : PDU) : Option PDU × ℚ × DataStore :=
  let handled := HandleRequest ds req
  let cfg? :=
    match requestRegType req.functionCode with
    | none => none
    | some regType => GetDelayConfig ds regType (be16 (req.data.getD 0 0) (req.data.getD 1 0))
  let outcome := ApplyDelayWithOptions cfg? disableTimeout randTimeout randJitter
  if outcome.1 then (some handled.1, outcome.2, handled.2)
  else (none, outcome.2, handled.2)

/-- The response path of `TCPServer.handleConnection` (tcp server source):
a `nil` response PDU from the handler suppresses the write entirely (the
connection stays open); otherwise the response ADU echoes transaction id,
protocol id and unit id around the response PDU with
`length = 1 + 1 + len(data)`. -/
def tcpServerResponse (transactionID protocolID unitID : Nat) (resp? : Option PDU) :
    Option (List Nat) :=
  match resp? with
  | none => none
  | some pdu =>
    let responseLength := (1 + 1 + pdu.data.length) % 65536
    some ([transactionID / 256 % 256, transactionID % 256,
           protocolID / 256 % 256, protocolID % 256,
           responseLength / 256 % 256, responseLength % 256, unitID]
          ++ pdu.functionCode :: pdu.data)

/-! ## Client façade argument guards (client.go)

Each public operation first validates its arguments and only then builds the
request PDU and hands it to `send` (encode, transporter `Send`, verify,
decode).  The pre-`send` phase is embedded as a function into `PreSend`:
`localError` is a return before any transport activity, `send` carries the
request PDU that would be encoded and written. -/

/-- Error kinds raised locally by the client argument guards. -/
inductive ClientErrorKind where
  | invalidQuantity
  | invalidData
deriving Repr, DecidableEq

/-- Outcome of a client operation's pre-transport phase. -/
inductive PreSend where
  | localError (e : ClientErrorKind)
  | send (request : PDU)
deriving Repr, DecidableEq

/-- `dataBlock`: big-endian encoding of a sequence of 16-bit values. -/
def dataBlock (values : List Nat) : List Nat :=
  values.flatMap fun v => [v / 256 % 256, v % 256]

/-- `dataBlockSuffix`: `dataBlock` of the values, then the suffix length as
one byte (`uint8(len(suffix))` truncates modulo 256), then the suffix. -/
def dataBlockSuffix (suffix : List Nat) (values : List Nat) : List Nat :=
  dataBlock values ++ suffix.length % 256 :: suffix

/-- Guard and request build of `client.ReadCoils`. -/
def ReadCoilsPre (address quantity : Nat) : PreSend :=
  if quantity < 1 ∨ quantity > 2000 then .localError .invalidQuantity
  else .send ⟨1, dataBlock [address, quantity]⟩

/-- Guard and request build of `client.ReadDiscreteInputs`. -/
def ReadDiscreteInputsPre (address quantity : Nat) : PreSend :=
  if quantity < 1 ∨ quantity > 2000 then .localError .invalidQuantity
  else .send ⟨2, dataBlock [address, quantity]⟩

/-- Guard and request build of `client.ReadHoldingRegisters`. -/
def ReadHoldingRegistersPre (address quantity : Nat) : PreSend :=
  if quantity < 1 ∨ quantity > 125 then .localError .invalidQuantity
  else .send ⟨3, dataBlock [address, quantity]⟩

/-- Guard and request build of `client.ReadInputRegisters`. -/
def ReadInputRegistersPre (address quantity : Nat) : PreSend :=
  if quantity < 1 ∨ quantity > 125 then .localError .invalidQuantity
  else .send ⟨4, dataBlock [address, quantity]⟩

/-- Guard and request build of `client.WriteSingleCoil`: the value must be
0xFF00 (ON) or 0x0000 (OFF). -/
def WriteSingleCoilPre (address value : Nat) : PreSend :=
  if value ≠ 0xFF00 ∧ value ≠ 0x0000 then .localError .invalidData
  else .send ⟨5, dataBlock [address, value]⟩

/-- Guard and request build of `client.WriteSingleRegister` (no guard). -/
def WriteSingleRegisterPre (address value : Nat) : PreSend :=
  .send ⟨6, dataBlock [address, value]⟩

/-- Guard and request build of `client.WriteMultipleCoils`. -/
def WriteMultipleCoilsPre (address quantity : Nat) (value : List Nat) : PreSend :=
  if quantity < 1 ∨ quantity > 1968 then .localError .invalidQuantity
  else .send ⟨15, dataBlockSuffix value [address, quantity]⟩

/-- Guard and request build of `client.WriteMultipleRegisters`. -/
def WriteMultipleRegistersPre (address quantity : Nat) (value : List Nat) : PreSend :=
  if quantity < 1 ∨ quantity > 123 then .localError .invalidQuantity
  else .send ⟨16, dataBlockSuffix value [address, quantity]⟩

/-- Guard and request build of `client.MaskWriteRegister` (no guard). -/
def MaskWriteRegisterPre (address andMask orMask : Nat) : PreSend :=
  .send ⟨22, dataBlock [address, andMask, orMask]⟩

/-- Guard and request build of `client.ReadWriteMultipleRegisters`. -/
def ReadWriteMultipleRegistersPre (readAddress readQuantity writeAddress writeQuantity : Nat)
    (value : List Nat) : PreSend :=
  if readQuantity < 1 ∨ readQuantity > 125 then .localError .invalidQuantity
  else if writeQuantity < 1 ∨ writeQuantity > 121 then .localError .invalidQuantity
  else .send ⟨23, dataBlockSuffix value [readAddress, readQuantity, writeAddress, writeQuantity]⟩

/-! ## MBAP packager (client tcp source) -/

/-- `tcpPackager.Encode`: 7-byte MBAP header (transaction id big-endian and
truncated to `uint16`, protocol id 0, `length = 1 + 1 + len(data)`, unit id)
followed by function code and data. -/
def tcpEncode (transactionID slaveID : Nat) (pdu : PDU) : List Nat :=
  let length := (1 + 1 + pdu.data.length) % 65536
  [transactionID % 65536 / 256, transactionID % 256, 0, 0,
   length / 256, length % 256, slaveID]
    ++ pdu.functionCode :: pdu.data

/-- `tcpPackager.Decode`: the declared length must satisfy
`len(adu) - 7 == int(length - 1)` with a positive PDU part (`length - 1` is
`uint16` arithmetic, hence the `% 65536` wrap for `length = 0`). -/
def tcpDecode (adu : List Nat) : Except String PDU :=
  let length := be16 (adu.getD 4 0) (adu.getD 5 0)
  if adu.length ≤ 7 then .error "length in response does not match pdu data length"
  else if adu.length - 7 ≠ (length + 65535) % 65536 then
    .error "length in response does not match pdu data length"
  else .ok ⟨adu.getD 7 0, adu.drop 8⟩

/-! ## TCP transporter read strategy (client tcp source) -/

/-- Result of the response-reading phase of `tcpTransporter.Send`.  A
`protocolError` records that the stale-byte flush ran (`flushed`, with a zero
read deadline) and how many response bytes had been consumed when the error
was raised. -/
inductive TCPReadResult where
  | ioError (stage : String)
  | protocolError (flushed : Bool) (consumed : Nat)
  | ok (adu : List Nat) (consumed : Nat)
deriving Repr, DecidableEq

/-- The response-reading phase of `tcpTransporter.Send` applied to the stream
of bytes the connection will deliver: read exactly 7 header bytes, parse the
length field, reject `length <= 0` and
`length > tcpMaxLength - (tcpHeaderSize - 1) = 254` with a protocol error and
a flush, otherwise read `length - 1` further bytes and return
`data[:length+6]`. -/
def tcpReadResponse (stream : List Nat) : TCPReadResult :=
  if stream.length < 7 then .ioError "reading response header"
  else if be16 (stream.getD 4 0) (stream.getD 5 0) ≤ 0 then .protocolError true 7
  else if be16 (stream.getD 4 0) (stream.getD 5 0) > 254 then .protocolError true 7
  else if stream.length < be16 (stream.getD 4 0) (stream.getD 5 0) + 6 then
    .ioError "reading response body"
  else .ok (stream.take (be16 (stream.getD 4 0) (stream.getD 5 0) + 6))
    (be16 (stream.getD 4 0) (stream.getD 5 0) + 6)

/-! ## CRC-16/Modbus and the RTU framer (rtuclient.go) -/

/-- One shift step of the CRC-16/Modbus bit loop: shift right, folding in the
reflected polynomial 0xA001 when the low bit was set. -/
def crc16Round (c : Nat) : Nat :=
  if c % 2 = 1 then (c / 2) ^^^ 0xA001 else c / 2

/-- Modelled from the spec: the modbus package's `crc` accumulator (its file
is absent from the available sources; rtuclient.go only calls
`reset`/`pushBytes`/`value`).  Per spec section 4.2 it is CRC-16/Modbus:
polynomial 0xA001 reflected, init 0xFFFF, no final XOR, byte-wise.  Each
input byte is XORed into the register, then eight shift rounds run. -/
def crc16 (data : List Nat) : Nat :=
  data.foldl (fun c b => Nat.iterate crc16Round 8 (c ^^^ b % 256)) 0xFFFF

/-- `rtuPackager.Encode`: `slave_id || function_code || data || crc_lo ||
crc_hi`, rejecting frames longer than `rtuMaxSize = 256`. -/
def rtuEncode (slaveID : Nat) (pdu : PDU) : Except String (List Nat) :=
  if pdu.data.length + 4 > 256 then .error "length of data must not be bigger than max size"
  else
    let checksum := crc16 (slaveID :: pdu.functionCode :: pdu.data)
    .ok (slaveID :: pdu.functionCode :: pdu.data ++ [checksum % 256, checksum / 256])

/-- `rtuPackager.Decode`: recompute the CRC over `adu[:len-2]`, compare with
the little-endian trailing pair (`uint16(adu[len-1])<<8 | uint16(adu[len-2])`,
embedded as the big-endian read of hi then lo), then extract
`function_code = adu[1]` and `data = adu[2:len-2]`. -/
def rtuDecode (adu : List Nat) : Except String PDU :=
  if be16 (adu.getD (adu.length - 1) 0) (adu.getD (adu.length - 2) 0)
      ≠ crc16 (adu.take (adu.length - 2)) then
    .error "response crc does not match expected"
  else .ok ⟨adu.getD 1 0, (adu.drop 2).take (adu.length - 4)⟩

/-- `calculateResponseLength` from rtuclient.go: starting from
`rtuMinSize = 4`, add the function-code-specific payload size; the quantity is
read big-endian from `adu[4:6]`. -/
def calculateResponseLength (adu : List Nat) : Nat :=
  let fc := adu.getD 1 0
  if fc = 2 ∨ fc = 1 then
    let count := be16 (adu.getD 4 0) (adu.getD 5 0)
    4 + 1 + count / 8 + (if count % 8 ≠ 0 then 1 else 0)
  else if fc = 4 ∨ fc = 3 ∨ fc = 23 then
    let count := be16 (adu.getD 4 0) (adu.getD 5 0)
    4 + 1 + count * 2
  else if fc = 5 ∨ fc = 15 ∨ fc = 6 ∨ fc = 16 then 4 + 4
  else if fc = 22 then 4 + 6
  else 4

/-- The target-length selection of the `rtuSerialTransporter.Send` read loop:
after at least `rtuMinSize = 4` bytes (`n`) have arrived, switch on the second
response byte — the request function code selects the computed total, the
value `function & 0x80` (the source's `functionFail`) selects
`rtuExceptionSize = 5`, anything else keeps the bytes already read. -/
def rtuTargetLength (function bytesToRead n secondByte : Nat) : Nat :=
  let functionFail := function &&& 0x80
  if secondByte = function then bytesToRead
  else if secondByte = functionFail then 5
  else n

/-! ## LRC and the ASCII framers -/

/-- `lrc8` from the simulator: sum the bytes in `uint8` arithmetic, then
return the two's complement (`uint8(-int8(sum))`, embedded via the exact
`int8`/`uint8` conversions). -/
def lrc8 (data : List Nat) : Nat :=
  let sum : Nat := data.foldl (fun s b => (s + b) % 256) 0
  let signed : Int := if sum < 128 then (sum : Int) else (sum : Int) - 256
  ((-signed) % 256).toNat

/-- The `hexTable` of the ASCII client source: `"0123456789ABCDEF"` as byte
values. -/
def hexTable : List Nat := [48, 49, 50, 51, 52, 53, 54, 55, 56, 57, 65, 66, 67, 68, 69, 70]

/-- `writeHex` for a single byte: `hexTable[v>>4]` then `hexTable[v&0x0F]`
(two uppercase hex characters). -/
def writeHexByte (v : Nat) : List Nat :=
  [hexTable.getD (v / 16 % 16) 0, hexTable.getD (v % 16) 0]

/-- The lowercase hex digit table used by Go's `encoding/hex` encoder. -/
def hexTableLower : List Nat :=
  [48, 49, 50, 51, 52, 53, 54, 55, 56, 57, 97, 98, 99, 100, 101, 102]

/-- `hex.EncodeToString` for one byte (lowercase). -/
def writeHexByteLower (v : Nat) : List Nat :=
  [hexTableLower.getD (v / 16 % 16) 0, hexTableLower.getD (v % 16) 0]

/-- `strings.ToUpper` on a single ASCII character. -/
def asciiToUpper (c : Nat) : Nat :=
  if 97 ≤ c ∧ c ≤ 122 then c - 32 else c

/-- `encoding/hex`'s `fromHexChar`: accepts `0-9`, `a-f` and `A-F`. -/
def hexDigitVal (c : Nat) : Option Nat :=
  if 48 ≤ c ∧ c ≤ 57 then some (c - 48)
  else if 97 ≤ c ∧ c ≤ 102 then some (c - 97 + 10)
  else if 65 ≤ c ∧ c ≤ 70 then some (c - 65 + 10)
  else none

/-- `readHex` from the ASCII client source: decode the hex pair at offsets
`i`, `i+1` of the frame into one byte. -/
def readHexAt (adu : List Nat) (i : Nat) : Option Nat :=
  match hexDigitVal (adu.getD i 0), hexDigitVal (adu.getD (i + 1) 0) with
  | some h, some l => some (16 * h + l)
  | _, _ => none

/-- `hex.Decode` on a character run: successive pairs; an odd leftover or a
non-hex character fails. -/
def hexDecode : List Nat → Option (List Nat)
  | [] => some []
  | [_] => none
  | c1 :: c2 :: rest =>
    match hexDigitVal c1, hexDigitVal c2, hexDecode rest with
    | some h, some l, some tl => some ((16 * h + l) :: tl)
    | _, _, _ => none

/-- `asciiPackager.Encode` (client source): `':'`, slave id, function code and
data as uppercase hex pairs, the LRC over the binary bytes, then CRLF.  The
modbus package's `lrc` accumulator file is absent from the available sources;
per spec section 4.2 it computes the same two's-complement byte sum as the
simulator's `lrc8`, which is used here. -/
def asciiEncode (slaveID : Nat) (pdu : PDU) : List Nat :=
  58 :: (writeHexByte slaveID ++ writeHexByte pdu.functionCode
    ++ pdu.data.flatMap writeHexByte
    ++ writeHexByte (lrc8 (slaveID :: pdu.functionCode :: pdu.data)))
    ++ [13, 10]

/-- `asciiPackager.Decode` (client source): slave id from `adu[1:3]`, function
code from `adu[3:5]`, data from `adu[5:len-4]`, LRC from `adu[len-4:len-2]`;
the recomputed LRC must match. -/
def asciiDecode (adu : List Nat) : Except String PDU :=
  match readHexAt adu 1, readHexAt adu 3,
      hexDecode ((adu.drop 5).take (adu.length - 4 - 5)), readHexAt adu (adu.length - 4) with
  | some address, some fc, some data, some lrcVal =>
    if lrcVal ≠ lrc8 (address :: fc :: data) then
      .error "response lrc does not match expected"
    else .ok ⟨fc, data⟩
  | _, _, _, _ => .error "invalid hex in frame"

/-- `asciiPackager.Encode` from ascii_server.go: the slave id, function code
and LRC are written with `fmt.Sprintf` `%02X` (uppercase), the data with
`strings.ToUpper(hex.EncodeToString(data))`. -/
def asciiServerEncode (slaveID : Nat) (pdu : PDU) : List Nat :=
  58 :: (writeHexByte slaveID ++ writeHexByte pdu.functionCode
    ++ ((pdu.data.flatMap writeHexByteLower).map asciiToUpper)
    ++ writeHexByte (lrc8 (slaveID :: pdu.functionCode :: pdu.data)))
    ++ [13, 10]

/-! ## Concrete example stores used to exercise the theorems -/

/-- A zeroed datastore with no delay configuration (the default simulator
state, `NewDataStore(nil)`). -/
def exampleStore : DataStore :=
  ⟨fun _ => false, fun _ => false, fun _ => 0, fun _ => 0, none⟩

/-- A datastore whose delay configuration carries the per-address policy
`delays.holdingRegs[200] = (timeoutProbability: 1.0)` from the delay tests. -/
def exampleDelayStore : DataStore :=
  ⟨fun _ => false, fun _ => false, fun _ => 0, fun _ => 0,
   some ⟨fun _ => none, fun _ => none, fun _ => none,
         fun a => if a = 200 then some ⟨none, 0, 1⟩ else none, fun _ => none⟩⟩

/-! ## Helper lemmas -/

theorem writeSeq_not_in {α : Type} :
    ∀ (values : List α) (f : Nat → α) (address a : Nat),
      a < address ∨ address + values.length ≤ a → writeSeq f address values a = f a := by
  intro values
  induction values with
  | nil => intro f address a _; rfl
  | cons v rest ih =>
      intro f address a h
      simp only [List.length_cons] at h
      show writeSeq (fun x => if x = address then v else f x) (address + 1) rest a = f a
      rw [ih _ (address + 1) a (by omega)]
      have hne : a ≠ address := by omega
      simp [hne]

theorem writeSeq_in {α : Type} :
    ∀ (values : List α) (f : Nat → α) (address i : Nat) (d : α),
      i < values.length → writeSeq f address values (address + i) = values.getD i d := by
  intro values
  induction values with
  | nil => intro f address i d h; simp at h
  | cons v rest ih =>
      intro f address i d h
      show writeSeq (fun x => if x = address then v else f x) (address + 1) rest (address + i)
        = (v :: rest).getD i d
      match i with
      | 0 =>
          rw [writeSeq_not_in rest _ (address + 1) (address + 0) (by omega)]
          simp
      | Nat.succ j =>
          have : address + (j + 1) = (address + 1) + j := by omega
          rw [this, ih _ (address + 1) j d (by simpa using h)]
          simp [List.getD]

theorem getD_range_map {α : Type} (f : Nat → α) (d : α) (k i : Nat) (h : i < k) :
    ((List.range k).map f).getD i d = f i := by
  rw [List.getD_eq_getElem _ _ (by simpa using h)]
  simp [List.getElem_map, List.getElem_range]

theorem range_map_getD (v : List Bool) :
    (List.range v.length).map (fun i => v.getD i false) = v := by
  apply List.ext_getElem
  · simp
  · intro i h1 h2
    simp only [List.getElem_map, List.getElem_range]
    rw [List.getD_eq_getElem _ _ h2]

/-! ## Claim C9 -/

/-- Claim C9: `DataStore.MaskWriteRegister` stores
`(current AND andMask) OR (orMask AND (NOT andMask))` at the target holding
register, never returns an error, and leaves every other holding register and
the other three banks untouched. -/
theorem mask_write_register_spec (ds : DataStore) (address andMask orMask : Nat)
    (h1 : address < 65536) (h2 : andMask < 65536) (h3 : orMask < 65536) :
    ∃ ds', ds.MaskWriteRegister address andMask orMask = .ok ds' ∧
      ds'.holdingRegs address =
        (ds.holdingRegs address &&& andMask) ||| (orMask &&& (andMask ^^^ 65535)) ∧
      (∀ a, a ≠ address → ds'.holdingRegs a = ds.holdingRegs a) ∧
      ds'.coils = ds.coils ∧ ds'.discreteInputs = ds.discreteInputs ∧
      ds'.inputRegs = ds.inputRegs := by
  refine ⟨_, rfl, ?_, ?_, rfl, rfl, rfl⟩
  · simp [DataStore.MaskWriteRegister]
  · intro a ha
    simp [DataStore.MaskWriteRegister, ha]

/-- Witness for C9 at a concrete store, address and masks. -/
theorem mask_write_register_witness :
    ∃ ds', exampleStore.MaskWriteRegister 5 61680 4660 = .ok ds' ∧
      ds'.holdingRegs 5 =
        (exampleStore.holdingRegs 5 &&& 61680) ||| (4660 &&& (61680 ^^^ 65535)) ∧
      (∀ a, a ≠ 5 → ds'.holdingRegs a = exampleStore.holdingRegs a) ∧
      ds'.coils = exampleStore.coils ∧ ds'.discreteInputs = exampleStore.discreteInputs ∧
      ds'.inputRegs = exampleStore.inputRegs :=
  mask_write_register_spec exampleStore 5 61680 4660 (by decide) (by decide) (by decide)

/-! ## Claim C7 -/

/-- Claim C7: every client operation rejects an out-of-range quantity with
`ErrInvalidQuantity` (and `WriteSingleCoil` rejects values other than 0x0000
and 0xFF00 with `ErrInvalidData`) in its pre-transport phase, i.e. the guard
returns before the request PDU is handed to the transporter's `Send`, so no
byte reaches the transport. -/
theorem client_guards :
    (∀ address quantity : Nat, quantity < 1 ∨ quantity > 2000 →
      ReadCoilsPre address quantity = .localError .invalidQuantity) ∧
    (∀ address quantity : Nat, quantity < 1 ∨ quantity > 2000 →
      ReadDiscreteInputsPre address quantity = .localError .invalidQuantity) ∧
    (∀ address quantity : Nat, quantity < 1 ∨ quantity > 125 →
      ReadHoldingRegistersPre address quantity = .localError .invalidQuantity) ∧
    (∀ address quantity : Nat, quantity < 1 ∨ quantity > 125 →
      ReadInputRegistersPre address quantity = .localError .invalidQuantity) ∧
    (∀ (address quantity : Nat) (value : List Nat), quantity < 1 ∨ quantity > 1968 →
      WriteMultipleCoilsPre address quantity value = .localError .invalidQuantity) ∧
    (∀ (address quantity : Nat) (value : List Nat), quantity < 1 ∨ quantity > 123 →
      WriteMultipleRegistersPre address quantity value = .localError .invalidQuantity) ∧
    (∀ (ra rq wa wq : Nat) (value : List Nat),
      (rq < 1 ∨ rq > 125 →
        ReadWriteMultipleRegistersPre ra rq wa wq value = .localError .invalidQuantity) ∧
      (1 ≤ rq → rq ≤ 125 → wq < 1 ∨ wq > 121 →
        ReadWriteMultipleRegistersPre ra rq wa wq value = .localError .invalidQuantity)) ∧
    (∀ address value : Nat, value ≠ 0xFF00 → value ≠ 0x0000 →
      WriteSingleCoilPre address value = .localError .invalidData) := by
  refine ⟨?_, ?_, ?_, ?_, ?_, ?_, ?_, ?_⟩
  · intro address quantity h; unfold ReadCoilsPre; rw [if_pos h]
  · intro address quantity h; unfold ReadDiscreteInputsPre; rw [if_pos h]
  · intro address quantity h; unfold ReadHoldingRegistersPre; rw [if_pos h]
  · intro address quantity h; unfold ReadInputRegistersPre; rw [if_pos h]
  · intro address quantity value h; unfold WriteMultipleCoilsPre; rw [if_pos h]
  · intro address quantity value h; unfold WriteMultipleRegistersPre; rw [if_pos h]
  · intro ra rq wa wq value
    constructor
    · intro h; unfold ReadWriteMultipleRegistersPre; rw [if_pos h]
    · intro h1 h2 h3
      unfold ReadWriteMultipleRegistersPre
      rw [if_neg (by omega), if_pos h3]
  · intro address value h1 h2
    unfold WriteSingleCoilPre
    rw [if_pos ⟨h1, h2⟩]

/-- Witness for C7: quantity 0 is rejected locally by `ReadCoils` and value
5 is rejected locally by `WriteSingleCoil`. -/
theorem client_guards_witness :
    ReadCoilsPre 10 0 = .localError .invalidQuantity ∧
    WriteSingleCoilPre 10 5 = .localError .invalidData :=
  ⟨client_guards.1 10 0 (by omega), client_guards.2.2.2.2.2.2.2 10 5 (by omega) (by omega)⟩

/-! ## Claim C2 -/

/-- Claim C2 (amended): after reading exactly the 7 header bytes the TCP
transporter validates `0 < length ≤ 254` — not `1 < length`: a length field
of exactly 1 is accepted and proceeds (its rejection happens later, in
`tcpPackager.Decode`).  For every length field outside `0 < length ≤ 254` it
returns a protocol error and discard-flushes with a zero read deadline,
having consumed only the 7 header bytes; otherwise it goes on to read
`length - 1` body bytes and returns the `length + 6`-byte ADU. -/
theorem tcp_length_validation (stream : List Nat) (h7 : 7 ≤ stream.length) :
    (¬(0 < be16 (stream.getD 4 0) (stream.getD 5 0) ∧
        be16 (stream.getD 4 0) (stream.getD 5 0) ≤ 254) →
      tcpReadResponse stream = .protocolError true 7) ∧
    (∀ L, L = be16 (stream.getD 4 0) (stream.getD 5 0) → 0 < L → L ≤ 254 →
      L + 6 ≤ stream.length →
      tcpReadResponse stream = .ok (stream.take (L + 6)) (L + 6)) := by
  constructor
  · intro h
    unfold tcpReadResponse
    rw [if_neg (by omega)]
    split_ifs with h1 h2
    · rfl
    · rfl
    · omega
    · omega
  · intro L hL h1 h2 h3
    unfold tcpReadResponse
    rw [if_neg (by omega)]
    rw [if_neg (by omega), if_neg (by omega), if_neg (by omega)]
    rw [← hL]

/-- Counterexample for C2 as stated: the header length field 1 lies outside
the claimed valid range `1 < length ≤ 254`, yet the transporter returns the
7-byte ADU successfully instead of a protocol error. -/
theorem tcp_length_one_accepted :
    ¬ 1 < be16 (([0, 1, 0, 0, 0, 1, 1] : List Nat).getD 4 0)
        (([0, 1, 0, 0, 0, 1, 1] : List Nat).getD 5 0) ∧
    tcpReadResponse [0, 1, 0, 0, 0, 1, 1] = .ok [0, 1, 0, 0, 0, 1, 1] 7 :=
  ⟨by decide, by decide⟩

/-- Witness for C2: a length field of 65535 is rejected with a protocol error
and a flush after only the 7 header bytes. -/
theorem tcp_length_validation_witness :
    tcpReadResponse [0, 0, 0, 0, 255, 255, 0] = .protocolError true 7 :=
  (tcp_length_validation [0, 0, 0, 0, 255, 255, 0] (by decide)).1 (by decide)

/-! ## Claim C5 -/

/-- Claim C5: `calculateResponseLength` matches the spec's table —
`5 + ⌈quantity/8⌉` for function codes 1 and 2, `5 + 2·quantity` for 3, 4 and
23 (quantity read big-endian from ADU bytes 4..5), 8 for 5, 6, 15 and 16, and
10 for 22.  The final conjunct evaluates the read loop's target-length
selection at an exception response: because the source computes
`functionFail := aduRequest[1] & 0x80` (AND, not OR), a response whose second
byte is `function | 0x80` falls into the default branch and the target stays
at the bytes already read instead of the claimed exception size 5. -/
theorem rtu_response_length :
    (∀ (sid a1 a0 q1 q0 : Nat) (rest : List Nat),
      calculateResponseLength (sid :: 1 :: a1 :: a0 :: q1 :: q0 :: rest)
          = 5 + (be16 q1 q0 + 7) / 8 ∧
      calculateResponseLength (sid :: 2 :: a1 :: a0 :: q1 :: q0 :: rest)
          = 5 + (be16 q1 q0 + 7) / 8 ∧
      calculateResponseLength (sid :: 3 :: a1 :: a0 :: q1 :: q0 :: rest)
          = 5 + 2 * be16 q1 q0 ∧
      calculateResponseLength (sid :: 4 :: a1 :: a0 :: q1 :: q0 :: rest)
          = 5 + 2 * be16 q1 q0 ∧
      calculateResponseLength (sid :: 23 :: a1 :: a0 :: q1 :: q0 :: rest)
          = 5 + 2 * be16 q1 q0) ∧
    (∀ (sid fc : Nat) (rest : List Nat), fc = 5 ∨ fc = 6 ∨ fc = 15 ∨ fc = 16 →
      calculateResponseLength (sid :: fc :: rest) = 8) ∧
    (∀ (sid : Nat) (rest : List Nat), calculateResponseLength (sid :: 22 :: rest) = 10) ∧
    (∀ (function bytesToRead n : Nat), function < 128 →
      rtuTargetLength function bytesToRead n (function ||| 128) = n) := by
  refine ⟨?_, ?_, ?_, ?_⟩
  · intro sid a1 a0 q1 q0 rest
    refine ⟨?_, ?_, ?_, ?_, ?_⟩ <;>
      · simp only [calculateResponseLength, List.getD_cons_succ, List.getD_cons_zero]
        norm_num
        try split_ifs
        all_goals omega
  · intro sid fc rest h
    rcases h with rfl | rfl | rfl | rfl <;>
      · simp only [calculateResponseLength, List.getD_cons_succ, List.getD_cons_zero]
        norm_num
  · intro sid rest
    simp only [calculateResponseLength, List.getD_cons_succ, List.getD_cons_zero]
    norm_num
  · intro function bytesToRead n hf
    have h1 : (function ||| 128).testBit 7 = true := by
      rw [Nat.testBit_lor]
      have h2 : (128 : Nat) = 2 ^ 7 := by norm_num
      rw [h2, Nat.testBit_two_pow_self]
      simp
    have h3 : (function &&& 128).testBit 7 = false := by
      rw [Nat.testBit_land, Nat.testBit_eq_false_of_lt (by omega)]
      rfl
    have h4 : function.testBit 7 = false := Nat.testBit_eq_false_of_lt (by omega)
    have hne1 : function ||| 128 ≠ function := by
      intro he; rw [he, h4] at h1; simp at h1
    have hne2 : function ||| 128 ≠ function &&& 128 := by
      intro he; rw [he, h3] at h1; simp at h1
    unfold rtuTargetLength
    rw [if_neg hne1, if_neg hne2]

/-- Witness for C5: the bit-read formula at quantity 9 and the read loop
keeping 4 bytes on a function-code-3 exception response. -/
theorem rtu_response_length_witness :
    calculateResponseLength [17, 1, 0, 0, 0, 9] = 5 + (be16 0 9 + 7) / 8 ∧
    rtuTargetLength 3 9 4 (3 ||| 128) = 4 :=
  ⟨(rtu_response_length.1 17 0 0 0 9 []).1,
   rtu_response_length.2.2.2 3 9 4 (by omega)⟩

/-! ## Claim C10 -/

/-- Claim C10: `WriteMultipleCoils` and `WriteMultipleRegisters` validate
`address + quantity ≤ 65536` in widened arithmetic (both operands are
`uint16`, so the `uint32` sum in the source equals the exact sum here and
no wrap modulo 2^16 can bypass the bound) before any store: a range error is
returned exactly when `quantity = 0` or `address + quantity > 65536`, with
the store untouched (the embedding returns before constructing any updated
store, mirroring the source's validate-then-mutate order), and on success
exactly the `quantity` entries starting at `address` are updated while every
other entry and the other banks are unchanged. -/
theorem write_multiple_range_check (ds : DataStore) (address : Nat) :
    (∀ values : List Bool, address < 65536 → values.length ≤ 65535 →
      ((∃ e, ds.WriteMultipleCoils address values = .error e) ↔
        values.length = 0 ∨ address + values.length > 65536) ∧
      ∀ ds', ds.WriteMultipleCoils address values = .ok ds' →
        (∀ i, i < values.length → ds'.coils (address + i) = values.getD i false) ∧
        (∀ a, a < address ∨ address + values.length ≤ a → ds'.coils a = ds.coils a) ∧
        ds'.discreteInputs = ds.discreteInputs ∧ ds'.holdingRegs = ds.holdingRegs ∧
        ds'.inputRegs = ds.inputRegs) ∧
    (∀ values : List Nat, address < 65536 → values.length ≤ 65535 →
      ((∃ e, ds.WriteMultipleRegisters address values = .error e) ↔
        values.length = 0 ∨ address + values.length > 65536) ∧
      ∀ ds', ds.WriteMultipleRegisters address values = .ok ds' →
        (∀ i, i < values.length → ds'.holdingRegs (address + i) = values.getD i 0) ∧
        (∀ a, a < address ∨ address + values.length ≤ a →
          ds'.holdingRegs a = ds.holdingRegs a) ∧
        ds'.coils = ds.coils ∧ ds'.discreteInputs = ds.discreteInputs ∧
        ds'.inputRegs = ds.inputRegs) := by
  constructor
  · intro values h1 h2
    have hq : values.length % 65536 = values.length := Nat.mod_eq_of_lt (by omega)
    by_cases hz : values.length = 0
    · constructor
      · simp [DataStore.WriteMultipleCoils, validateRange, hq, hz]
      · intro ds' hds'
        simp [DataStore.WriteMultipleCoils, validateRange, hq, hz] at hds'
    · by_cases hb : address + values.length > 65536
      · constructor
        · simp only [DataStore.WriteMultipleCoils, validateRange, hq]
          rw [if_neg hz, if_pos (show maxAddress < address + values.length by
            simp only [maxAddress]; omega)]
          exact (iff_of_true ⟨_, rfl⟩ (Or.inr hb))
        · intro ds' hds'
          simp only [DataStore.WriteMultipleCoils, validateRange, hq] at hds'
          rw [if_neg hz, if_pos (show maxAddress < address + values.length by
            simp only [maxAddress]; omega)] at hds'
          simp at hds'
      · constructor
        · simp only [DataStore.WriteMultipleCoils, validateRange, hq]
          rw [if_neg hz, if_neg (show ¬ maxAddress < address + values.length by
            simp only [maxAddress]; omega)]
          simp only [Except.ok.injEq]
          constructor
          · rintro ⟨e, he⟩; exact absurd he (by simp)
          · intro h; omega
        · intro ds' hds'
          simp only [DataStore.WriteMultipleCoils, validateRange, hq] at hds'
          rw [if_neg hz, if_neg (show ¬ maxAddress < address + values.length by
            simp only [maxAddress]; omega)] at hds'
          simp only [Except.ok.injEq] at hds'
          subst hds'
          rw [List.take_length]
          refine ⟨?_, ?_, rfl, rfl, rfl⟩
          · intro i hi
            exact writeSeq_in values ds.coils address i false hi
          · intro a ha
            exact writeSeq_not_in values ds.coils address a ha
  · intro values h1 h2
    have hq : values.length % 65536 = values.length := Nat.mod_eq_of_lt (by omega)
    by_cases hz : values.length = 0
    · constructor
      · simp [DataStore.WriteMultipleRegisters, validateRange, hq, hz]
      · intro ds' hds'
        simp [DataStore.WriteMultipleRegisters, validateRange, hq, hz] at hds'
    · by_cases hb : address + values.length > 65536
      · constructor
        · simp only [DataStore.WriteMultipleRegisters, validateRange, hq]
          rw [if_neg hz, if_pos (show maxAddress < address + values.length by
            simp only [maxAddress]; omega)]
          exact (iff_of_true ⟨_, rfl⟩ (Or.inr hb))
        · intro ds' hds'
          simp only [DataStore.WriteMultipleRegisters, validateRange, hq] at hds'
          rw [if_neg hz, if_pos (show maxAddress < address + values.length by
            simp only [maxAddress]; omega)] at hds'
          simp at hds'
      · constructor
        · simp only [DataStore.WriteMultipleRegisters, validateRange, hq]
          rw [if_neg hz, if_neg (show ¬ maxAddress < address + values.length by
            simp only [maxAddress]; omega)]
          simp only [Except.ok.injEq]
          constructor
          · rintro ⟨e, he⟩; exact absurd he (by simp)
          · intro h; omega
        · intro ds' hds'
          simp only [DataStore.WriteMultipleRegisters, validateRange, hq] at hds'
          rw [if_neg hz, if_neg (show ¬ maxAddress < address + values.length by
            simp only [maxAddress]; omega)] at hds'
          simp only [Except.ok.injEq] at hds'
          subst hds'
          rw [List.take_length]
          refine ⟨?_, ?_, rfl, rfl, rfl⟩
          · intro i hi
            exact writeSeq_in values ds.holdingRegs address i 0 hi
          · intro a ha
            exact writeSeq_not_in values ds.holdingRegs address a ha

/-- Witness for C10: writing three coils at address 10 of the zeroed store is
not a range error. -/
theorem write_multiple_range_check_witness :
    (∃ e, exampleStore.WriteMultipleCoils 10 [true, false, true] = .error e) ↔
      ([true, false, true] : List Bool).length = 0 ∨
        10 + ([true, false, true] : List Bool).length > 65536 :=
  ((write_multiple_range_check exampleStore 10).1 [true, false, true]
    (by decide) (by decide)).1

/-! ## Claim C8 -/

theorem foldl_add_mod (l : List Nat) :
    ∀ s : Nat, l.foldl (fun s b => (s + b) % 256) (s % 256) = (s + l.sum) % 256 := by
  induction l with
  | nil => intro s; simp
  | cons b t ih =>
      intro s
      simp only [List.foldl_cons, List.sum_cons]
      rw [Nat.mod_add_mod]
      rw [ih (s + b)]
      omega

theorem asciiToUpper_hexTableLower :
    ∀ d, d < 16 → asciiToUpper (hexTableLower.getD d 0) = hexTable.getD d 0 := by decide

theorem map_asciiToUpper_writeHexLower (b : Nat) :
    (writeHexByteLower b).map asciiToUpper = writeHexByte b := by
  simp only [writeHexByteLower, writeHexByte, List.map]
  rw [asciiToUpper_hexTableLower _ (Nat.mod_lt _ (by omega)),
    asciiToUpper_hexTableLower _ (Nat.mod_lt _ (by omega))]

theorem flatMap_upper_eq (data : List Nat) :
    (data.flatMap writeHexByteLower).map asciiToUpper = data.flatMap writeHexByte := by
  induction data with
  | nil => rfl
  | cons b t ih =>
      simp only [List.flatMap_cons, List.map_append, ih, map_asciiToUpper_writeHexLower]

/-- Claim C8: `lrc8` is the two's complement of the byte sum modulo 256, and
both ASCII encoders (client and simulator server) compute it over the binary
bytes `slave_id :: function_code :: data` and append it as two uppercase
hexadecimal characters immediately before the CRLF terminator. -/
theorem lrc_and_ascii_encoders :
    (∀ data : List Nat, (lrc8 data : Int) = (-(data.sum : Int)) % 256) ∧
    (∀ b : Nat, b < 256 → ∀ c ∈ writeHexByte b, (48 ≤ c ∧ c ≤ 57) ∨ (65 ≤ c ∧ c ≤ 70)) ∧
    (∀ (slaveID fc : Nat) (data : List Nat), slaveID < 256 → fc < 256 →
      asciiEncode slaveID ⟨fc, data⟩
          = 58 :: (writeHexByte slaveID ++ writeHexByte fc ++ data.flatMap writeHexByte
              ++ writeHexByte (lrc8 (slaveID :: fc :: data))) ++ [13, 10] ∧
      asciiServerEncode slaveID ⟨fc, data⟩
          = 58 :: (writeHexByte slaveID ++ writeHexByte fc ++ data.flatMap writeHexByte
              ++ writeHexByte (lrc8 (slaveID :: fc :: data))) ++ [13, 10]) := by
  refine ⟨?_, ?_, ?_⟩
  · intro data
    unfold lrc8
    have h0 : (0 : Nat) = 0 % 256 := rfl
    rw [h0, foldl_add_mod data 0]
    simp only [Nat.zero_add]
    split_ifs with h
    · push_cast
      omega
    · push_cast
      omega
  · intro b hb c hc
    have h1 : b / 16 % 16 < 16 := Nat.mod_lt _ (by omega)
    have h2 : b % 16 < 16 := Nat.mod_lt _ (by omega)
    have hd : ∀ d, d < 16 →
        (48 ≤ hexTable.getD d 0 ∧ hexTable.getD d 0 ≤ 57) ∨
        (65 ≤ hexTable.getD d 0 ∧ hexTable.getD d 0 ≤ 70) := by decide
    simp only [writeHexByte, List.mem_cons, List.mem_singleton, List.not_mem_nil] at hc
    rcases hc with rfl | rfl | h
    · exact hd _ h1
    · exact hd _ h2
    · exact absurd h (by simp)
  · intro slaveID fc data h1 h2
    constructor
    · rfl
    · simp only [asciiServerEncode, flatMap_upper_eq]

/-- Witness for C8: both encoders on slave 1, function code 1, data bytes
`[10, 255]`. -/
theorem lrc_and_ascii_encoders_witness :
    asciiEncode 1 ⟨1, [10, 255]⟩
        = 58 :: (writeHexByte 1 ++ writeHexByte 1 ++ ([10, 255] : List Nat).flatMap writeHexByte
            ++ writeHexByte (lrc8 [1, 1, 10, 255])) ++ [13, 10] ∧
    asciiServerEncode 1 ⟨1, [10, 255]⟩
        = 58 :: (writeHexByte 1 ++ writeHexByte 1 ++ ([10, 255] : List Nat).flatMap writeHexByte
            ++ writeHexByte (lrc8 [1, 1, 10, 255])) ++ [13, 10] :=
  lrc_and_ascii_encoders.2.2 1 1 [10, 255] (by decide) (by decide)

/-! ## Claim C6 -/

theorem packByte_cons (b : Bool) (t : List Bool) :
    packByte (b :: t) = (if b then 1 else 0) + 2 * packByte t := rfl

theorem packByte_lt : ∀ l : List Bool, packByte l < 2 ^ l.length := by
  intro l
  induction l with
  | nil => simp [packByte]
  | cons b t ih =>
      rw [packByte_cons, List.length_cons, pow_succ]
      cases b
      · rw [if_neg (by simp)]
        omega
      · rw [if_pos rfl]
        omega

theorem testBit_packByte : ∀ (l : List Bool) (k : Nat),
    (packByte l).testBit k = l.getD k false := by
  intro l
  induction l with
  | nil => intro k; simp [packByte, Nat.zero_testBit]
  | cons b t ih =>
      intro k
      match k with
      | 0 =>
          rw [packByte_cons]
          simp only [Nat.testBit_to_div_mod, pow_zero, Nat.div_one, List.getD_cons_zero]
          cases b <;> simp <;> omega
      | Nat.succ j =>
          rw [packByte_cons, Nat.testBit_add_one]
          have hdiv : ((if b then 1 else 0) + 2 * packByte t) / 2 = packByte t := by
            cases b <;> simp <;> omega
          rw [hdiv, ih j]
          simp [List.getD]

theorem length_packBytes (v : List Bool) : (packBytes v).length = (v.length + 7) / 8 := by
  simp [packBytes]

theorem getD_packBytes (v : List Bool) (j : Nat) (hj : j < (v.length + 7) / 8) :
    (packBytes v).getD j 0 = packByte ((v.drop (8 * j)).take 8) := by
  unfold packBytes
  exact getD_range_map _ _ _ _ hj

theorem getD_chunk (v : List Bool) (i : Nat) :
    ((v.drop (8 * (i / 8))).take 8).getD (i % 8) false = v.getD i false := by
  have h8 : i % 8 < 8 := Nat.mod_lt _ (by omega)
  rcases Nat.lt_or_ge i v.length with hi | hi
  · rw [List.getD_eq_getElem?_getD, List.getElem?_take_of_lt h8, List.getElem?_drop,
      List.getD_eq_getElem?_getD]
    congr 2
    omega
  · rw [List.getD_eq_default, List.getD_eq_default]
    · exact hi
    · simp only [List.length_take, List.length_drop]
      omega

theorem bit_extract (x k : Nat) : decide (x &&& 1 <<< k ≠ 0) = x.testBit k := by
  rw [Nat.shiftLeft_eq, one_mul, Nat.and_two_pow]
  cases h : x.testBit k <;> simp [h]

/-- Claim C6 (amended): for a coil vector of length `q ≥ 1`, `boolsToBytes`
emits a leading byte holding `⌈q/8⌉` truncated to a byte (`byte(byteCount)`;
equal to `⌈q/8⌉` itself whenever `q ≤ 2040 `, and the dispatcher only packs
`q ≤ 2000`), followed by `⌈q/8⌉` data bytes with bit `i mod 8` of byte
`i div 8` holding coil `i`, the unused high bits of the last byte zero, and
`bytesToBools` of the packed data bytes with quantity `q` recovers the
vector exactly. -/
theorem coil_packing (v : List Bool) (hq : 1 ≤ v.length) :
    (boolsToBytes v).length = 1 + (v.length + 7) / 8 ∧
    (boolsToBytes v).getD 0 0 = ((v.length + 7) / 8) % 256 ∧
    (∀ i, i < v.length →
      Nat.testBit ((boolsToBytes v).getD (1 + i / 8) 0) (i % 8) = v.getD i false) ∧
    (∀ j, j < (v.length + 7) / 8 →
      (boolsToBytes v).getD (1 + j) 0 < 2 ^ min 8 (v.length - 8 * j)) ∧
    bytesToBools ((boolsToBytes v).drop 1) v.length = v := by
  refine ⟨?_, ?_, ?_, ?_, ?_⟩
  · simp only [boolsToBytes, List.length_cons, length_packBytes]
    omega
  · simp [boolsToBytes]
  · intro i hi
    have hb : i / 8 < (v.length + 7) / 8 := by omega
    rw [Nat.add_comm 1 (i / 8)]
    show ((((v.length + 7) / 8) % 256 :: packBytes v).getD (i / 8 + 1) 0).testBit (i % 8)
      = v.getD i false
    rw [List.getD_cons_succ, getD_packBytes v _ hb, testBit_packByte, getD_chunk]
  · intro j hj
    rw [Nat.add_comm 1 j]
    show (((v.length + 7) / 8) % 256 :: packBytes v).getD (j + 1) 0 < _
    rw [List.getD_cons_succ, getD_packBytes v j hj]
    have := packByte_lt ((v.drop (8 * j)).take 8)
    simpa [List.length_take, List.length_drop, Nat.min_comm] using this
  · show bytesToBools (packBytes v) v.length = v
    apply List.ext_getElem
    · simp [bytesToBools]
    · intro i h1 h2
      simp only [bytesToBools, List.getElem_map, List.getElem_range]
      have hb : i / 8 < (v.length + 7) / 8 := by
        simp [bytesToBools] at h1
        omega
      rw [getD_packBytes v _ hb, bit_extract, testBit_packByte, getD_chunk,
        List.getD_eq_getElem _ _ h2]

/-- Counterexample for C6 as stated: a vector of 2048 coils has
`⌈2048/8⌉ = 256`, but the leading byte of `boolsToBytes` is `byte(256) = 0`. -/
theorem coil_packing_count_byte_counterexample :
    (boolsToBytes (List.replicate 2048 false)).getD 0 0
      ≠ ((List.replicate 2048 false).length + 7) / 8 := by
  simp only [boolsToBytes, List.getD_cons_zero, List.length_replicate]
  decide

/-- Witness for C6 on the three-coil vector `[true, false, true]`. -/
theorem coil_packing_witness :
    (boolsToBytes [true, false, true]).length = 1 + (3 + 7) / 8 ∧
    (boolsToBytes [true, false, true]).getD 0 0 = ((3 + 7) / 8) % 256 ∧
    (∀ i, i < 3 →
      Nat.testBit ((boolsToBytes [true, false, true]).getD (1 + i / 8) 0) (i % 8)
        = ([true, false, true] : List Bool).getD i false) ∧
    (∀ j, j < (3 + 7) / 8 →
      (boolsToBytes [true, false, true]).getD (1 + j) 0 < 2 ^ min 8 (3 - 8 * j)) ∧
    bytesToBools ((boolsToBytes [true, false, true]).drop 1) 3 = [true, false, true] :=
  coil_packing [true, false, true] (by decide)

/-! ## Claim C3 -/

theorem crc16Round_lt (c : Nat) (h : c < 65536) : crc16Round c < 65536 := by
  unfold crc16Round
  split_ifs
  · have h16 : (65536 : Nat) = 2 ^ 16 := by norm_num
    rw [h16]
    exact Nat.xor_lt_two_pow (by omega) (by norm_num)
  · omega

theorem iterate_crc16Round_lt : ∀ (n c : Nat), c < 65536 →
    Nat.iterate crc16Round n c < 65536 := by
  intro n
  induction n with
  | zero => intro c h; simpa using h
  | succ m ih =>
      intro c h
      rw [Function.iterate_succ_apply]
      exact ih _ (crc16Round_lt c h)

theorem crc16_foldl_lt : ∀ (l : List Nat) (c : Nat), c < 65536 →
    l.foldl (fun c b => Nat.iterate crc16Round 8 (c ^^^ b % 256)) c < 65536 := by
  intro l
  induction l with
  | nil => intro c h; simpa using h
  | cons b t ih =>
      intro c h
      simp only [List.foldl_cons]
      apply ih
      apply iterate_crc16Round_lt
      have h16 : (65536 : Nat) = 2 ^ 16 := by norm_num
      rw [h16]
      exact Nat.xor_lt_two_pow (by omega) (by have := Nat.mod_lt b (show 0 < 256 by omega); omega)

theorem crc16_lt (l : List Nat) : crc16 l < 65536 :=
  crc16_foldl_lt l 0xFFFF (by omega)

theorem mbap_roundtrip (transactionID slaveID : Nat) (p : PDU)
    (hlen : p.data.length ≤ 252) :
    tcpDecode (tcpEncode transactionID slaveID p) = .ok p := by
  obtain ⟨fc, data⟩ := p
  simp only at hlen
  have hL : (1 + 1 + data.length) % 65536 = 2 + data.length := Nat.mod_eq_of_lt (by omega)
  simp only [tcpEncode, tcpDecode, List.cons_append, List.nil_append, List.getD_cons_succ,
    List.getD_cons_zero, List.length_cons, be16, hL]
  rw [if_neg (by omega), if_neg (by omega)]
  rfl

theorem rtu_roundtrip (slaveID : Nat) (p : PDU) (hlen : p.data.length ≤ 252) :
    (rtuEncode slaveID p >>= rtuDecode) = .ok p := by
  obtain ⟨fc, data⟩ := p
  simp only at hlen
  unfold rtuEncode
  rw [if_neg (by simp only []; omega)]
  show rtuDecode (slaveID :: fc :: data
    ++ [crc16 (slaveID :: fc :: data) % 256, crc16 (slaveID :: fc :: data) / 256]) = _
  have hc := crc16_lt (slaveID :: fc :: data)
  unfold rtuDecode
  have hlen2 : (slaveID :: fc :: data
      ++ [crc16 (slaveID :: fc :: data) % 256, crc16 (slaveID :: fc :: data) / 256]).length
      = data.length + 4 := by
    simp
  rw [hlen2]
  have hhi : (slaveID :: fc :: data
      ++ [crc16 (slaveID :: fc :: data) % 256, crc16 (slaveID :: fc :: data) / 256]).getD
      (data.length + 4 - 1) 0 = crc16 (slaveID :: fc :: data) / 256 := by
    have h3 : data.length + 4 - 1 = (data.length + 1) + 1 + 1 := by omega
    rw [h3]
    simp only [List.cons_append, List.getD_cons_succ]
    rw [List.getD_append_right _ _ _ _ (by omega)]
    simp
  have hlo : (slaveID :: fc :: data
      ++ [crc16 (slaveID :: fc :: data) % 256, crc16 (slaveID :: fc :: data) / 256]).getD
      (data.length + 4 - 2) 0 = crc16 (slaveID :: fc :: data) % 256 := by
    have h3 : data.length + 4 - 2 = data.length + 1 + 1 := by omega
    rw [h3]
    simp only [List.cons_append, List.getD_cons_succ]
    rw [List.getD_append_right _ _ _ _ (by omega)]
    simp
  rw [hhi, hlo]
  have htake : (slaveID :: fc :: data
      ++ [crc16 (slaveID :: fc :: data) % 256, crc16 (slaveID :: fc :: data) / 256]).take
      (data.length + 4 - 2) = slaveID :: fc :: data := by
    have h3 : data.length + 4 - 2 = (data.length + 1) + 1 := by omega
    rw [h3]
    simp only [List.cons_append, List.take_succ_cons]
    congr 2
    exact List.take_left data _
  rw [htake]
  rw [if_neg (by simp only [be16]; omega)]
  have hdat : ((slaveID :: fc :: data
      ++ [crc16 (slaveID :: fc :: data) % 256, crc16 (slaveID :: fc :: data) / 256]).drop 2).take
      (data.length + 4 - 4) = data := by
    simp only [List.cons_append, List.drop_succ_cons, List.drop_zero]
    have h4 : data.length + 4 - 4 = data.length := by omega
    rw [h4]
    exact List.take_left data _
  rw [hdat]
  simp

theorem hexDigitVal_hexTable : ∀ d, d < 16 → hexDigitVal (hexTable.getD d 0) = some d := by
  decide

theorem length_flatMap_writeHex (data : List Nat) :
    (data.flatMap writeHexByte).length = 2 * data.length := by
  induction data with
  | nil => rfl
  | cons b t ih =>
      simp only [List.flatMap_cons, List.length_append, ih, writeHexByte, List.length_cons,
        List.length_nil, List.length_cons]
      omega

theorem hexDecode_flatMap (data : List Nat) (h : ∀ b ∈ data, b < 256) :
    hexDecode (data.flatMap writeHexByte) = some data := by
  induction data with
  | nil => rfl
  | cons b t ih =>
      have hb : b < 256 := h b (by simp)
      simp only [List.flatMap_cons, writeHexByte, List.cons_append, List.nil_append]
      show hexDecode (hexTable.getD (b / 16 % 16) 0 :: hexTable.getD (b % 16) 0
        :: t.flatMap writeHexByte) = _
      simp only [hexDecode]
      rw [hexDigitVal_hexTable _ (Nat.mod_lt _ (by omega)),
        hexDigitVal_hexTable _ (Nat.mod_lt _ (by omega)),
        ih (fun x hx => h x (by simp [hx]))]
      show some ((16 * (b / 16 % 16) + b % 16) :: t) = some (b :: t)
      have hbb : 16 * (b / 16 % 16) + b % 16 = b := by omega
      rw [hbb]

theorem lrc8_lt (data : List Nat) : lrc8 data < 256 := by
  simp only [lrc8]
  split_ifs <;> omega

theorem ascii_roundtrip (slaveID : Nat) (p : PDU) (hslave : slaveID < 256)
    (hfc : p.functionCode < 256) (hdata : ∀ b ∈ p.data, b < 256) :
    asciiDecode (asciiEncode slaveID p) = .ok p := by
  obtain ⟨fc, data⟩ := p
  simp only at hfc hdata
  have hflatlen : (data.flatMap writeHexByte).length = 2 * data.length :=
    length_flatMap_writeHex data
  have htotal : (asciiEncode slaveID ⟨fc, data⟩).length = 9 + 2 * data.length := by
    simp only [asciiEncode, writeHexByte, List.length_append, List.length_cons,
      List.length_nil, hflatlen]
    omega
  unfold asciiDecode
  rw [htotal]
  have hread1 : readHexAt (asciiEncode slaveID ⟨fc, data⟩) 1 = some slaveID := by
    unfold asciiEncode readHexAt writeHexByte
    simp only [List.cons_append, List.nil_append, List.getD_cons_succ, List.getD_cons_zero]
    rw [hexDigitVal_hexTable _ (Nat.mod_lt _ (by omega)),
      hexDigitVal_hexTable _ (Nat.mod_lt _ (by omega))]
    show some (16 * (slaveID / 16 % 16) + slaveID % 16) = some slaveID
    congr 1
    omega
  have hread3 : readHexAt (asciiEncode slaveID ⟨fc, data⟩) 3 = some fc := by
    unfold asciiEncode readHexAt writeHexByte
    simp only [List.cons_append, List.nil_append, List.getD_cons_succ, List.getD_cons_zero]
    rw [hexDigitVal_hexTable _ (Nat.mod_lt _ (by omega)),
      hexDigitVal_hexTable _ (Nat.mod_lt _ (by omega))]
    show some (16 * (fc / 16 % 16) + fc % 16) = some fc
    congr 1
    omega
  have hsplit2 : asciiEncode slaveID ⟨fc, data⟩
      = (58 :: (writeHexByte slaveID ++ writeHexByte fc))
        ++ (data.flatMap writeHexByte
          ++ (writeHexByte (lrc8 (slaveID :: fc :: data)) ++ [13, 10])) := by
    simp [asciiEncode, List.append_assoc]
  have hprelen2 : (58 :: (writeHexByte slaveID ++ writeHexByte fc)).length = 5 := by
    simp [writeHexByte]
  have hslice : ((asciiEncode slaveID ⟨fc, data⟩).drop 5).take (9 + 2 * data.length - 4 - 5)
      = data.flatMap writeHexByte := by
    rw [hsplit2, List.drop_left' hprelen2,
      show 9 + 2 * data.length - 4 - 5 = 2 * data.length from by omega,
      List.take_left' hflatlen]
  have hreadL : readHexAt (asciiEncode slaveID ⟨fc, data⟩) (9 + 2 * data.length - 4)
      = some (lrc8 (slaveID :: fc :: data)) := by
    have hsplit : asciiEncode slaveID ⟨fc, data⟩
        = (58 :: (writeHexByte slaveID ++ writeHexByte fc ++ data.flatMap writeHexByte))
          ++ (writeHexByte (lrc8 (slaveID :: fc :: data)) ++ [13, 10]) := by
      simp [asciiEncode, List.append_assoc]
    have hprelen : (58 :: (writeHexByte slaveID ++ writeHexByte fc
        ++ data.flatMap writeHexByte)).length = 5 + 2 * data.length := by
      simp only [List.length_cons, List.length_append, hflatlen, writeHexByte,
        List.length_cons, List.length_nil]
      omega
    have hgA : ((58 :: (writeHexByte slaveID ++ writeHexByte fc
          ++ data.flatMap writeHexByte))
        ++ (writeHexByte (lrc8 (slaveID :: fc :: data)) ++ [13, 10])).getD
          (9 + 2 * data.length - 4) 0
        = (writeHexByte (lrc8 (slaveID :: fc :: data)) ++ [13, 10]).getD 0 0 := by
      rw [List.getD_append_right _ _ _ _ (by rw [hprelen]; omega), hprelen]
      congr 1
      omega
    have hgB : ((58 :: (writeHexByte slaveID ++ writeHexByte fc
          ++ data.flatMap writeHexByte))
        ++ (writeHexByte (lrc8 (slaveID :: fc :: data)) ++ [13, 10])).getD
          (9 + 2 * data.length - 4 + 1) 0
        = (writeHexByte (lrc8 (slaveID :: fc :: data)) ++ [13, 10]).getD 1 0 := by
      rw [List.getD_append_right _ _ _ _ (by rw [hprelen]; omega), hprelen]
      congr 1
      omega
    unfold readHexAt
    rw [hsplit, hgA, hgB]
    have hg0 : (writeHexByte (lrc8 (slaveID :: fc :: data)) ++ [13, 10]).getD 0 0
        = hexTable.getD (lrc8 (slaveID :: fc :: data) / 16 % 16) 0 := by
      simp [writeHexByte]
    have hg1 : (writeHexByte (lrc8 (slaveID :: fc :: data)) ++ [13, 10]).getD 1 0
        = hexTable.getD (lrc8 (slaveID :: fc :: data) % 16) 0 := by
      simp [writeHexByte, List.getD]
    rw [hg0, hg1]
    rw [hexDigitVal_hexTable _ (Nat.mod_lt _ (by omega)),
      hexDigitVal_hexTable _ (Nat.mod_lt _ (by omega))]
    show some (16 * (lrc8 (slaveID :: fc :: data) / 16 % 16)
      + lrc8 (slaveID :: fc :: data) % 16) = some (lrc8 (slaveID :: fc :: data))
    have hlb : lrc8 (slaveID :: fc :: data) < 256 := lrc8_lt _
    congr 1
    omega
  rw [hread1, hread3, hslice, hexDecode_flatMap data hdata, hreadL]
  simp

/-- Claim C3: for every byte-valued PDU within the framers' encodable bounds,
`Decode (Encode p) = p` for the MBAP, RTU and ASCII framers: the decoded
function code and data equal the originals. -/
theorem framer_roundtrip (transactionID slaveID : Nat) (p : PDU)
    (hslave : slaveID < 256) (hfc : p.functionCode < 256)
    (hdata : ∀ b ∈ p.data, b < 256) (hlen : p.data.length ≤ 252) :
    tcpDecode (tcpEncode transactionID slaveID p) = .ok p ∧
    (rtuEncode slaveID p >>= rtuDecode) = .ok p ∧
    asciiDecode (asciiEncode slaveID p) = .ok p :=
  ⟨mbap_roundtrip transactionID slaveID p hlen,
   rtu_roundtrip slaveID p hlen,
   ascii_roundtrip slaveID p hslave hfc hdata⟩

/-- Witness for C3 on the ReadHoldingRegisters request PDU `⟨3, [0, 1, 0, 2]⟩`
with slave 17 and transaction id 5. -/
theorem framer_roundtrip_witness :
    tcpDecode (tcpEncode 5 17 ⟨3, [0, 1, 0, 2]⟩) = .ok ⟨3, [0, 1, 0, 2]⟩ ∧
    (rtuEncode 17 ⟨3, [0, 1, 0, 2]⟩ >>= rtuDecode) = .ok ⟨3, [0, 1, 0, 2]⟩ ∧
    asciiDecode (asciiEncode 17 ⟨3, [0, 1, 0, 2]⟩) = .ok ⟨3, [0, 1, 0, 2]⟩ :=
  framer_roundtrip 5 17 ⟨3, [0, 1, 0, 2]⟩ (by decide) (by decide) (by decide) (by decide)

/-! ## Claim C4 -/

theorem shape_handleReadCoils (ds : DataStore) (req : PDU) :
    (handleReadCoils ds req).functionCode = req.functionCode ∨
    ∃ c, handleReadCoils ds req = newExceptionResponse req.functionCode c := by
  simp only [handleReadCoils]
  repeat' split
  all_goals first
    | exact Or.inl rfl
    | exact Or.inr ⟨_, rfl⟩

theorem shape_handleReadDiscreteInputs (ds : DataStore) (req : PDU) :
    (handleReadDiscreteInputs ds req).functionCode = req.functionCode ∨
    ∃ c, handleReadDiscreteInputs ds req = newExceptionResponse req.functionCode c := by
  simp only [handleReadDiscreteInputs]
  repeat' split
  all_goals first
    | exact Or.inl rfl
    | exact Or.inr ⟨_, rfl⟩

theorem shape_handleReadHoldingRegisters (ds : DataStore) (req : PDU) :
    (handleReadHoldingRegisters ds req).functionCode = req.functionCode ∨
    ∃ c, handleReadHoldingRegisters ds req = newExceptionResponse req.functionCode c := by
  simp only [handleReadHoldingRegisters]
  repeat' split
  all_goals first
    | exact Or.inl rfl
    | exact Or.inr ⟨_, rfl⟩

theorem shape_handleReadInputRegisters (ds : DataStore) (req : PDU) :
    (handleReadInputRegisters ds req).functionCode = req.functionCode ∨
    ∃ c, handleReadInputRegisters ds req = newExceptionResponse req.functionCode c := by
  simp only [handleReadInputRegisters]
  repeat' split
  all_goals first
    | exact Or.inl rfl
    | exact Or.inr ⟨_, rfl⟩

theorem shape_handleWriteSingleCoil (ds : DataStore) (req : PDU) :
    ((handleWriteSingleCoil ds req).1).functionCode = req.functionCode ∨
    ∃ c, (handleWriteSingleCoil ds req).1 = newExceptionResponse req.functionCode c := by
  simp only [handleWriteSingleCoil]
  repeat' split
  all_goals first
    | exact Or.inl rfl
    | exact Or.inr ⟨_, rfl⟩

theorem shape_handleWriteSingleRegister (ds : DataStore) (req : PDU) :
    ((handleWriteSingleRegister ds req).1).functionCode = req.functionCode ∨
    ∃ c, (handleWriteSingleRegister ds req).1 = newExceptionResponse req.functionCode c := by
  simp only [handleWriteSingleRegister]
  repeat' split
  all_goals first
    | exact Or.inl rfl
    | exact Or.inr ⟨_, rfl⟩

theorem shape_handleWriteMultipleCoils (ds : DataStore) (req : PDU) :
    ((handleWriteMultipleCoils ds req).1).functionCode = req.functionCode ∨
    ∃ c, (handleWriteMultipleCoils ds req).1 = newExceptionResponse req.functionCode c := by
  simp only [handleWriteMultipleCoils]
  repeat' split
  all_goals first
    | exact Or.inl rfl
    | exact Or.inr ⟨_, rfl⟩

theorem shape_handleWriteMultipleRegisters (ds : DataStore) (req : PDU) :
    ((handleWriteMultipleRegisters ds req).1).functionCode = req.functionCode ∨
    ∃ c, (handleWriteMultipleRegisters ds req).1 = newExceptionResponse req.functionCode c := by
  simp only [handleWriteMultipleRegisters]
  repeat' split
  all_goals first
    | exact Or.inl rfl
    | exact Or.inr ⟨_, rfl⟩

theorem shape_handleMaskWriteRegister (ds : DataStore) (req : PDU) :
    ((handleMaskWriteRegister ds req).1).functionCode = req.functionCode ∨
    ∃ c, (handleMaskWriteRegister ds req).1 = newExceptionResponse req.functionCode c := by
  simp only [handleMaskWriteRegister]
  repeat' split
  all_goals first
    | exact Or.inl rfl
    | exact Or.inr ⟨_, rfl⟩

theorem shape_handleReadWriteMultipleRegisters (ds : DataStore) (req : PDU) :
    ((handleReadWriteMultipleRegisters ds req).1).functionCode = req.functionCode ∨
    ∃ c, (handleReadWriteMultipleRegisters ds req).1 = newExceptionResponse req.functionCode c := by
  simp only [handleReadWriteMultipleRegisters]
  repeat' split
  all_goals first
    | exact Or.inl rfl
    | exact Or.inr ⟨_, rfl⟩

theorem shape_HandleRequest (ds : DataStore) (req : PDU) :
    ((HandleRequest ds req).1).functionCode = req.functionCode ∨
    ∃ c, (HandleRequest ds req).1 = newExceptionResponse req.functionCode c := by
  unfold HandleRequest
  split
  · exact shape_handleReadCoils ds req
  · exact shape_handleReadDiscreteInputs ds req
  · exact shape_handleReadHoldingRegisters ds req
  · exact shape_handleReadInputRegisters ds req
  · exact shape_handleWriteSingleCoil ds req
  · exact shape_handleWriteSingleRegister ds req
  · exact shape_handleWriteMultipleCoils ds req
  · exact shape_handleWriteMultipleRegisters ds req
  · exact shape_handleMaskWriteRegister ds req
  · exact shape_handleReadWriteMultipleRegisters ds req
  · exact Or.inr ⟨1, rfl⟩
  · exact Or.inr ⟨1, rfl⟩

theorem readCoils_exc (ds : DataStore) :
    (∀ d : List Nat, d.length < 4 →
      (HandleRequest ds ⟨1, d⟩).1 = newExceptionResponse 1 3) ∧
    (∀ (a1 a0 q1 q0 : Nat) (rest : List Nat), be16 q1 q0 < 1 ∨ be16 q1 q0 > 2000 →
      (HandleRequest ds ⟨1, a1 :: a0 :: q1 :: q0 :: rest⟩).1 = newExceptionResponse 1 3) ∧
    (∀ (a1 a0 q1 q0 : Nat) (rest : List Nat), 1 ≤ be16 q1 q0 → be16 q1 q0 ≤ 2000 →
      be16 a1 a0 + be16 q1 q0 > 65536 →
      (HandleRequest ds ⟨1, a1 :: a0 :: q1 :: q0 :: rest⟩).1 = newExceptionResponse 1 2) := by
  refine ⟨?_, ?_, ?_⟩
  · intro d h
    show handleReadCoils ds ⟨1, d⟩ = _
    simp only [handleReadCoils]
    rw [if_pos h]
  · intro a1 a0 q1 q0 rest h
    show handleReadCoils ds ⟨1, a1 :: a0 :: q1 :: q0 :: rest⟩ = _
    simp only [handleReadCoils, List.getD_cons_succ, List.getD_cons_zero, List.length_cons]
    rw [if_neg (by omega), if_pos h]
  · intro a1 a0 q1 q0 rest h1 h2 h3
    show handleReadCoils ds ⟨1, a1 :: a0 :: q1 :: q0 :: rest⟩ = _
    simp only [handleReadCoils, List.getD_cons_succ, List.getD_cons_zero, List.length_cons]
    rw [if_neg (by omega), if_neg (by omega)]
    simp only [DataStore.ReadCoils, validateRange]
    rw [if_neg (by omega), if_pos (by simp only [maxAddress]; omega)]

theorem readDiscreteInputs_exc (ds : DataStore) :
    (∀ d : List Nat, d.length < 4 →
      (HandleRequest ds ⟨2, d⟩).1 = newExceptionResponse 2 3) ∧
    (∀ (a1 a0 q1 q0 : Nat) (rest : List Nat), be16 q1 q0 < 1 ∨ be16 q1 q0 > 2000 →
      (HandleRequest ds ⟨2, a1 :: a0 :: q1 :: q0 :: rest⟩).1 = newExceptionResponse 2 3) ∧
    (∀ (a1 a0 q1 q0 : Nat) (rest : List Nat), 1 ≤ be16 q1 q0 → be16 q1 q0 ≤ 2000 →
      be16 a1 a0 + be16 q1 q0 > 65536 →
      (HandleRequest ds ⟨2, a1 :: a0 :: q1 :: q0 :: rest⟩).1 = newExceptionResponse 2 2) := by
  refine ⟨?_, ?_, ?_⟩
  · intro d h
    show handleReadDiscreteInputs ds ⟨2, d⟩ = _
    simp only [handleReadDiscreteInputs]
    rw [if_pos h]
  · intro a1 a0 q1 q0 rest h
    show handleReadDiscreteInputs ds ⟨2, a1 :: a0 :: q1 :: q0 :: rest⟩ = _
    simp only [handleReadDiscreteInputs, List.getD_cons_succ, List.getD_cons_zero,
      List.length_cons]
    rw [if_neg (by omega), if_pos h]
  · intro a1 a0 q1 q0 rest h1 h2 h3
    show handleReadDiscreteInputs ds ⟨2, a1 :: a0 :: q1 :: q0 :: rest⟩ = _
    simp only [handleReadDiscreteInputs, List.getD_cons_succ, List.getD_cons_zero,
      List.length_cons]
    rw [if_neg (by omega), if_neg (by omega)]
    simp only [DataStore.ReadDiscreteInputs, validateRange]
    rw [if_neg (by omega), if_pos (by simp only [maxAddress]; omega)]

theorem readHoldingRegisters_exc (ds : DataStore) :
    (∀ d : List Nat, d.length < 4 →
      (HandleRequest ds ⟨3, d⟩).1 = newExceptionResponse 3 3) ∧
    (∀ (a1 a0 q1 q0 : Nat) (rest : List Nat), be16 q1 q0 < 1 ∨ be16 q1 q0 > 125 →
      (HandleRequest ds ⟨3, a1 :: a0 :: q1 :: q0 :: rest⟩).1 = newExceptionResponse 3 3) ∧
    (∀ (a1 a0 q1 q0 : Nat) (rest : List Nat), 1 ≤ be16 q1 q0 → be16 q1 q0 ≤ 125 →
      be16 a1 a0 + be16 q1 q0 > 65536 →
      (HandleRequest ds ⟨3, a1 :: a0 :: q1 :: q0 :: rest⟩).1 = newExceptionResponse 3 2) := by
  refine ⟨?_, ?_, ?_⟩
  · intro d h
    show handleReadHoldingRegisters ds ⟨3, d⟩ = _
    simp only [handleReadHoldingRegisters]
    rw [if_pos h]
  · intro a1 a0 q1 q0 rest h
    show handleReadHoldingRegisters ds ⟨3, a1 :: a0 :: q1 :: q0 :: rest⟩ = _
    simp only [handleReadHoldingRegisters, List.getD_cons_succ, List.getD_cons_zero,
      List.length_cons]
    rw [if_neg (by omega), if_pos h]
  · intro a1 a0 q1 q0 rest h1 h2 h3
    show handleReadHoldingRegisters ds ⟨3, a1 :: a0 :: q1 :: q0 :: rest⟩ = _
    simp only [handleReadHoldingRegisters, List.getD_cons_succ, List.getD_cons_zero,
      List.length_cons]
    rw [if_neg (by omega), if_neg (by omega)]
    simp only [DataStore.ReadHoldingRegisters, validateRange]
    rw [if_neg (by omega), if_pos (by simp only [maxAddress]; omega)]

theorem readInputRegisters_exc (ds : DataStore) :
    (∀ d : List Nat, d.length < 4 →
      (HandleRequest ds ⟨4, d⟩).1 = newExceptionResponse 4 3) ∧
    (∀ (a1 a0 q1 q0 : Nat) (rest : List Nat), be16 q1 q0 < 1 ∨ be16 q1 q0 > 125 →
      (HandleRequest ds ⟨4, a1 :: a0 :: q1 :: q0 :: rest⟩).1 = newExceptionResponse 4 3) ∧
    (∀ (a1 a0 q1 q0 : Nat) (rest : List Nat), 1 ≤ be16 q1 q0 → be16 q1 q0 ≤ 125 →
      be16 a1 a0 + be16 q1 q0 > 65536 →
      (HandleRequest ds ⟨4, a1 :: a0 :: q1 :: q0 :: rest⟩).1 = newExceptionResponse 4 2) := by
  refine ⟨?_, ?_, ?_⟩
  · intro d h
    show handleReadInputRegisters ds ⟨4, d⟩ = _
    simp only [handleReadInputRegisters]
    rw [if_pos h]
  · intro a1 a0 q1 q0 rest h
    show handleReadInputRegisters ds ⟨4, a1 :: a0 :: q1 :: q0 :: rest⟩ = _
    simp only [handleReadInputRegisters, List.getD_cons_succ, List.getD_cons_zero,
      List.length_cons]
    rw [if_neg (by omega), if_pos h]
  · intro a1 a0 q1 q0 rest h1 h2 h3
    show handleReadInputRegisters ds ⟨4, a1 :: a0 :: q1 :: q0 :: rest⟩ = _
    simp only [handleReadInputRegisters, List.getD_cons_succ, List.getD_cons_zero,
      List.length_cons]
    rw [if_neg (by omega), if_neg (by omega)]
    simp only [DataStore.ReadInputRegisters, validateRange]
    rw [if_neg (by omega), if_pos (by simp only [maxAddress]; omega)]

theorem writeMultipleCoils_exc (ds : DataStore) :
    (∀ d : List Nat, d.length < 5 →
      (HandleRequest ds ⟨15, d⟩).1 = newExceptionResponse 15 3) ∧
    (∀ (a1 a0 q1 q0 bc : Nat) (rest : List Nat), be16 q1 q0 < 1 ∨ be16 q1 q0 > 1968 →
      (HandleRequest ds ⟨15, a1 :: a0 :: q1 :: q0 :: bc :: rest⟩).1
        = newExceptionResponse 15 3) ∧
    (∀ (a1 a0 q1 q0 : Nat) (rest : List Nat), 1 ≤ be16 q1 q0 → be16 q1 q0 ≤ 1968 →
      (be16 q1 q0 + 7) / 8 ≤ rest.length → be16 a1 a0 + be16 q1 q0 > 65536 →
      (HandleRequest ds
          ⟨15, a1 :: a0 :: q1 :: q0 :: ((be16 q1 q0 + 7) / 8) :: rest⟩).1
        = newExceptionResponse 15 2) := by
  refine ⟨?_, ?_, ?_⟩
  · intro d h
    show (handleWriteMultipleCoils ds ⟨15, d⟩).1 = _
    simp only [handleWriteMultipleCoils]
    rw [if_pos h]
  · intro a1 a0 q1 q0 bc rest h
    show (handleWriteMultipleCoils ds ⟨15, a1 :: a0 :: q1 :: q0 :: bc :: rest⟩).1 = _
    simp only [handleWriteMultipleCoils, List.getD_cons_succ, List.getD_cons_zero,
      List.length_cons]
    rw [if_neg (by omega), if_pos h]
  · intro a1 a0 q1 q0 rest h1 h2 h3 h4
    show (handleWriteMultipleCoils ds
      ⟨15, a1 :: a0 :: q1 :: q0 :: ((be16 q1 q0 + 7) / 8) :: rest⟩).1 = _
    simp only [handleWriteMultipleCoils, List.getD_cons_succ, List.getD_cons_zero,
      List.length_cons, List.drop_succ_cons, List.drop_zero]
    rw [if_neg (by omega), if_neg (by omega), if_neg (by omega)]
    simp only [DataStore.WriteMultipleCoils, validateRange]
    have hcl : (bytesToBools (rest.take ((be16 q1 q0 + 7) / 8)) (be16 q1 q0)).length
        = be16 q1 q0 := by
      simp [bytesToBools]
    rw [hcl, Nat.mod_eq_of_lt (by omega), if_neg (by omega),
      if_pos (by simp only [maxAddress]; omega)]

theorem writeMultipleRegisters_exc (ds : DataStore) :
    (∀ d : List Nat, d.length < 5 →
      (HandleRequest ds ⟨16, d⟩).1 = newExceptionResponse 16 3) ∧
    (∀ (a1 a0 q1 q0 bc : Nat) (rest : List Nat), be16 q1 q0 < 1 ∨ be16 q1 q0 > 123 →
      (HandleRequest ds ⟨16, a1 :: a0 :: q1 :: q0 :: bc :: rest⟩).1
        = newExceptionResponse 16 3) ∧
    (∀ (a1 a0 q1 q0 : Nat) (rest : List Nat), 1 ≤ be16 q1 q0 → be16 q1 q0 ≤ 123 →
      be16 q1 q0 * 2 ≤ rest.length → be16 a1 a0 + be16 q1 q0 > 65536 →
      (HandleRequest ds ⟨16, a1 :: a0 :: q1 :: q0 :: (be16 q1 q0 * 2) :: rest⟩).1
        = newExceptionResponse 16 2) := by
  refine ⟨?_, ?_, ?_⟩
  · intro d h
    show (handleWriteMultipleRegisters ds ⟨16, d⟩).1 = _
    simp only [handleWriteMultipleRegisters]
    rw [if_pos h]
  · intro a1 a0 q1 q0 bc rest h
    show (handleWriteMultipleRegisters ds ⟨16, a1 :: a0 :: q1 :: q0 :: bc :: rest⟩).1 = _
    simp only [handleWriteMultipleRegisters, List.getD_cons_succ, List.getD_cons_zero,
      List.length_cons]
    rw [if_neg (by omega), if_pos h]
  · intro a1 a0 q1 q0 rest h1 h2 h3 h4
    show (handleWriteMultipleRegisters ds
      ⟨16, a1 :: a0 :: q1 :: q0 :: (be16 q1 q0 * 2) :: rest⟩).1 = _
    simp only [handleWriteMultipleRegisters, List.getD_cons_succ, List.getD_cons_zero,
      List.length_cons, List.drop_succ_cons, List.drop_zero]
    rw [if_neg (by omega), if_neg (by omega), if_neg (by omega)]
    simp only [DataStore.WriteMultipleRegisters, validateRange]
    have hcl : (bytesToRegisters (rest.take (be16 q1 q0 * 2))).length = be16 q1 q0 := by
      simp only [bytesToRegisters, List.length_map, List.length_range, List.length_take]
      omega
    rw [hcl, Nat.mod_eq_of_lt (by omega), if_neg (by omega),
      if_pos (by simp only [maxAddress]; omega)]

theorem maskWriteRegister_exc (ds : DataStore) :
    ∀ d : List Nat, d.length < 6 →
      (HandleRequest ds ⟨22, d⟩).1 = newExceptionResponse 22 3 := by
  intro d h
  show (handleMaskWriteRegister ds ⟨22, d⟩).1 = _
  simp only [handleMaskWriteRegister]
  rw [if_pos h]

theorem readWriteMultipleRegisters_exc (ds : DataStore) :
    (∀ d : List Nat, d.length < 9 →
      (HandleRequest ds ⟨23, d⟩).1 = newExceptionResponse 23 3) ∧
    (∀ (ra1 ra0 rq1 rq0 wa1 wa0 wq1 wq0 bc : Nat) (rest : List Nat),
      be16 rq1 rq0 < 1 ∨ be16 rq1 rq0 > 125 →
      (HandleRequest ds
          ⟨23, ra1 :: ra0 :: rq1 :: rq0 :: wa1 :: wa0 :: wq1 :: wq0 :: bc :: rest⟩).1
        = newExceptionResponse 23 3) ∧
    (∀ (ra1 ra0 rq1 rq0 wa1 wa0 wq1 wq0 bc : Nat) (rest : List Nat),
      1 ≤ be16 rq1 rq0 → be16 rq1 rq0 ≤ 125 →
      be16 wq1 wq0 < 1 ∨ be16 wq1 wq0 > 121 →
      (HandleRequest ds
          ⟨23, ra1 :: ra0 :: rq1 :: rq0 :: wa1 :: wa0 :: wq1 :: wq0 :: bc :: rest⟩).1
        = newExceptionResponse 23 3) ∧
    (∀ (ra1 ra0 rq1 rq0 wa1 wa0 wq1 wq0 : Nat) (rest : List Nat),
      1 ≤ be16 rq1 rq0 → be16 rq1 rq0 ≤ 125 →
      1 ≤ be16 wq1 wq0 → be16 wq1 wq0 ≤ 121 →
      be16 wq1 wq0 * 2 ≤ rest.length →
      be16 wa1 wa0 + be16 wq1 wq0 > 65536 →
      (HandleRequest ds
          ⟨23, ra1 :: ra0 :: rq1 :: rq0 :: wa1 :: wa0 :: wq1 :: wq0
            :: (be16 wq1 wq0 * 2) :: rest⟩).1
        = newExceptionResponse 23 2) ∧
    (∀ (ra1 ra0 rq1 rq0 wa1 wa0 wq1 wq0 : Nat) (rest : List Nat),
      1 ≤ be16 rq1 rq0 → be16 rq1 rq0 ≤ 125 →
      1 ≤ be16 wq1 wq0 → be16 wq1 wq0 ≤ 121 →
      be16 wq1 wq0 * 2 ≤ rest.length →
      be16 wa1 wa0 + be16 wq1 wq0 ≤ 65536 →
      be16 ra1 ra0 + be16 rq1 rq0 > 65536 →
      (HandleRequest ds
          ⟨23, ra1 :: ra0 :: rq1 :: rq0 :: wa1 :: wa0 :: wq1 :: wq0
            :: (be16 wq1 wq0 * 2) :: rest⟩).1
        = newExceptionResponse 23 2) := by
  refine ⟨?_, ?_, ?_, ?_, ?_⟩
  · intro d h
    show (handleReadWriteMultipleRegisters ds ⟨23, d⟩).1 = _
    simp only [handleReadWriteMultipleRegisters]
    rw [if_pos h]
  · intro ra1 ra0 rq1 rq0 wa1 wa0 wq1 wq0 bc rest h
    show (handleReadWriteMultipleRegisters ds
      ⟨23, ra1 :: ra0 :: rq1 :: rq0 :: wa1 :: wa0 :: wq1 :: wq0 :: bc :: rest⟩).1 = _
    simp only [handleReadWriteMultipleRegisters, List.getD_cons_succ, List.getD_cons_zero,
      List.length_cons]
    rw [if_neg (by omega), if_pos h]
  · intro ra1 ra0 rq1 rq0 wa1 wa0 wq1 wq0 bc rest h1 h2 h3
    show (handleReadWriteMultipleRegisters ds
      ⟨23, ra1 :: ra0 :: rq1 :: rq0 :: wa1 :: wa0 :: wq1 :: wq0 :: bc :: rest⟩).1 = _
    simp only [handleReadWriteMultipleRegisters, List.getD_cons_succ, List.getD_cons_zero,
      List.length_cons]
    rw [if_neg (by omega), if_neg (by omega), if_pos h3]
  · intro ra1 ra0 rq1 rq0 wa1 wa0 wq1 wq0 rest h1 h2 h3 h4 h5 h6
    show (handleReadWriteMultipleRegisters ds
      ⟨23, ra1 :: ra0 :: rq1 :: rq0 :: wa1 :: wa0 :: wq1 :: wq0
        :: (be16 wq1 wq0 * 2) :: rest⟩).1 = _
    simp only [handleReadWriteMultipleRegisters, List.getD_cons_succ, List.getD_cons_zero,
      List.length_cons, List.drop_succ_cons, List.drop_zero]
    rw [if_neg (by omega), if_neg (by omega), if_neg (by omega), if_neg (by omega)]
    simp only [DataStore.WriteMultipleRegisters, validateRange]
    have hcl : (bytesToRegisters (rest.take (be16 wq1 wq0 * 2))).length = be16 wq1 wq0 := by
      simp only [bytesToRegisters, List.length_map, List.length_range, List.length_take]
      omega
    rw [hcl, Nat.mod_eq_of_lt (by omega), if_neg (by omega),
      if_pos (by simp only [maxAddress]; omega)]
  · intro ra1 ra0 rq1 rq0 wa1 wa0 wq1 wq0 rest h1 h2 h3 h4 h5 h6 h7
    show (handleReadWriteMultipleRegisters ds
      ⟨23, ra1 :: ra0 :: rq1 :: rq0 :: wa1 :: wa0 :: wq1 :: wq0
        :: (be16 wq1 wq0 * 2) :: rest⟩).1 = _
    simp only [handleReadWriteMultipleRegisters, List.getD_cons_succ, List.getD_cons_zero,
      List.length_cons, List.drop_succ_cons, List.drop_zero]
    rw [if_neg (by omega), if_neg (by omega), if_neg (by omega), if_neg (by omega)]
    simp only [DataStore.WriteMultipleRegisters, validateRange]
    have hcl : (bytesToRegisters (rest.take (be16 wq1 wq0 * 2))).length = be16 wq1 wq0 := by
      simp only [bytesToRegisters, List.length_map, List.length_range, List.length_take]
      omega
    rw [hcl, Nat.mod_eq_of_lt (by omega), if_neg (by omega),
      if_neg (by simp only [maxAddress]; omega)]
    simp only [DataStore.ReadHoldingRegisters, validateRange]
    rw [if_neg (by omega), if_pos (by simp only [maxAddress]; omega)]

/-- Claim C4: the dispatcher returns exception IllegalDataValue (3) when the
request payload is shorter than the fixed header (4 bytes for the reads, 5
for write-multiple, 6 for mask-write, 9 for read/write-combined) or when the
decoded quantity is outside the per-function bounds; it returns exception
IllegalDataAddress (2) when the datastore reports a range error (for an
in-bounds quantity that means `address + quantity > 65536`); and every
response is either echo-coded or an exception whose function code is the
request's with the 0x80 bit set and whose data is exactly one byte holding
the exception code. -/
theorem dispatcher_validation :
    (∀ (ds : DataStore) (fc : Nat) (d : List Nat),
      fc = 1 ∨ fc = 2 ∨ fc = 3 ∨ fc = 4 → d.length < 4 →
      (HandleRequest ds ⟨fc, d⟩).1 = newExceptionResponse fc 3) ∧
    (∀ (ds : DataStore) (fc : Nat) (d : List Nat), fc = 15 ∨ fc = 16 → d.length < 5 →
      (HandleRequest ds ⟨fc, d⟩).1 = newExceptionResponse fc 3) ∧
    (∀ (ds : DataStore) (d : List Nat), d.length < 6 →
      (HandleRequest ds ⟨22, d⟩).1 = newExceptionResponse 22 3) ∧
    (∀ (ds : DataStore) (d : List Nat), d.length < 9 →
      (HandleRequest ds ⟨23, d⟩).1 = newExceptionResponse 23 3) ∧
    (∀ (ds : DataStore) (a1 a0 q1 q0 : Nat) (rest : List Nat),
      be16 q1 q0 < 1 ∨ be16 q1 q0 > 2000 →
      (HandleRequest ds ⟨1, a1 :: a0 :: q1 :: q0 :: rest⟩).1 = newExceptionResponse 1 3 ∧
      (HandleRequest ds ⟨2, a1 :: a0 :: q1 :: q0 :: rest⟩).1 = newExceptionResponse 2 3) ∧
    (∀ (ds : DataStore) (a1 a0 q1 q0 : Nat) (rest : List Nat),
      be16 q1 q0 < 1 ∨ be16 q1 q0 > 125 →
      (HandleRequest ds ⟨3, a1 :: a0 :: q1 :: q0 :: rest⟩).1 = newExceptionResponse 3 3 ∧
      (HandleRequest ds ⟨4, a1 :: a0 :: q1 :: q0 :: rest⟩).1 = newExceptionResponse 4 3) ∧
    (∀ (ds : DataStore) (a1 a0 q1 q0 bc : Nat) (rest : List Nat),
      be16 q1 q0 < 1 ∨ be16 q1 q0 > 1968 →
      (HandleRequest ds ⟨15, a1 :: a0 :: q1 :: q0 :: bc :: rest⟩).1
        = newExceptionResponse 15 3) ∧
    (∀ (ds : DataStore) (a1 a0 q1 q0 bc : Nat) (rest : List Nat),
      be16 q1 q0 < 1 ∨ be16 q1 q0 > 123 →
      (HandleRequest ds ⟨16, a1 :: a0 :: q1 :: q0 :: bc :: rest⟩).1
        = newExceptionResponse 16 3) ∧
    (∀ (ds : DataStore) (ra1 ra0 rq1 rq0 wa1 wa0 wq1 wq0 bc : Nat) (rest : List Nat),
      be16 rq1 rq0 < 1 ∨ be16 rq1 rq0 > 125 →
      (HandleRequest ds
          ⟨23, ra1 :: ra0 :: rq1 :: rq0 :: wa1 :: wa0 :: wq1 :: wq0 :: bc :: rest⟩).1
        = newExceptionResponse 23 3) ∧
    (∀ (ds : DataStore) (ra1 ra0 rq1 rq0 wa1 wa0 wq1 wq0 bc : Nat) (rest : List Nat),
      1 ≤ be16 rq1 rq0 → be16 rq1 rq0 ≤ 125 →
      be16 wq1 wq0 < 1 ∨ be16 wq1 wq0 > 121 →
      (HandleRequest ds
          ⟨23, ra1 :: ra0 :: rq1 :: rq0 :: wa1 :: wa0 :: wq1 :: wq0 :: bc :: rest⟩).1
        = newExceptionResponse 23 3) ∧
    (∀ (ds : DataStore) (a1 a0 q1 q0 : Nat) (rest : List Nat),
      1 ≤ be16 q1 q0 → be16 q1 q0 ≤ 2000 → be16 a1 a0 + be16 q1 q0 > 65536 →
      (HandleRequest ds ⟨1, a1 :: a0 :: q1 :: q0 :: rest⟩).1 = newExceptionResponse 1 2 ∧
      (HandleRequest ds ⟨2, a1 :: a0 :: q1 :: q0 :: rest⟩).1 = newExceptionResponse 2 2) ∧
    (∀ (ds : DataStore) (a1 a0 q1 q0 : Nat) (rest : List Nat),
      1 ≤ be16 q1 q0 → be16 q1 q0 ≤ 125 → be16 a1 a0 + be16 q1 q0 > 65536 →
      (HandleRequest ds ⟨3, a1 :: a0 :: q1 :: q0 :: rest⟩).1 = newExceptionResponse 3 2 ∧
      (HandleRequest ds ⟨4, a1 :: a0 :: q1 :: q0 :: rest⟩).1 = newExceptionResponse 4 2) ∧
    (∀ (ds : DataStore) (a1 a0 q1 q0 : Nat) (rest : List Nat),
      1 ≤ be16 q1 q0 → be16 q1 q0 ≤ 1968 → (be16 q1 q0 + 7) / 8 ≤ rest.length →
      be16 a1 a0 + be16 q1 q0 > 65536 →
      (HandleRequest ds
          ⟨15, a1 :: a0 :: q1 :: q0 :: ((be16 q1 q0 + 7) / 8) :: rest⟩).1
        = newExceptionResponse 15 2) ∧
    (∀ (ds : DataStore) (a1 a0 q1 q0 : Nat) (rest : List Nat),
      1 ≤ be16 q1 q0 → be16 q1 q0 ≤ 123 → be16 q1 q0 * 2 ≤ rest.length →
      be16 a1 a0 + be16 q1 q0 > 65536 →
      (HandleRequest ds ⟨16, a1 :: a0 :: q1 :: q0 :: (be16 q1 q0 * 2) :: rest⟩).1
        = newExceptionResponse 16 2) ∧
    (∀ (ds : DataStore) (ra1 ra0 rq1 rq0 wa1 wa0 wq1 wq0 : Nat) (rest : List Nat),
      1 ≤ be16 rq1 rq0 → be16 rq1 rq0 ≤ 125 → 1 ≤ be16 wq1 wq0 → be16 wq1 wq0 ≤ 121 →
      be16 wq1 wq0 * 2 ≤ rest.length → be16 wa1 wa0 + be16 wq1 wq0 > 65536 →
      (HandleRequest ds
          ⟨23, ra1 :: ra0 :: rq1 :: rq0 :: wa1 :: wa0 :: wq1 :: wq0
            :: (be16 wq1 wq0 * 2) :: rest⟩).1
        = newExceptionResponse 23 2) ∧
    (∀ (ds : DataStore) (ra1 ra0 rq1 rq0 wa1 wa0 wq1 wq0 : Nat) (rest : List Nat),
      1 ≤ be16 rq1 rq0 → be16 rq1 rq0 ≤ 125 → 1 ≤ be16 wq1 wq0 → be16 wq1 wq0 ≤ 121 →
      be16 wq1 wq0 * 2 ≤ rest.length → be16 wa1 wa0 + be16 wq1 wq0 ≤ 65536 →
      be16 ra1 ra0 + be16 rq1 rq0 > 65536 →
      (HandleRequest ds
          ⟨23, ra1 :: ra0 :: rq1 :: rq0 :: wa1 :: wa0 :: wq1 :: wq0
            :: (be16 wq1 wq0 * 2) :: rest⟩).1
        = newExceptionResponse 23 2) ∧
    (∀ (ds : DataStore) (req : PDU),
      ((HandleRequest ds req).1).functionCode = req.functionCode ∨
      ∃ c, (HandleRequest ds req).1 = newExceptionResponse req.functionCode c) := by
  refine ⟨?_, ?_, ?_, ?_, ?_, ?_, ?_, ?_, ?_, ?_, ?_, ?_, ?_, ?_, ?_, ?_, ?_⟩
  · intro ds fc d hfc h
    rcases hfc with rfl | rfl | rfl | rfl
    · exact (readCoils_exc ds).1 d h
    · exact (readDiscreteInputs_exc ds).1 d h
    · exact (readHoldingRegisters_exc ds).1 d h
    · exact (readInputRegisters_exc ds).1 d h
  · intro ds fc d hfc h
    rcases hfc with rfl | rfl
    · exact (writeMultipleCoils_exc ds).1 d h
    · exact (writeMultipleRegisters_exc ds).1 d h
  · intro ds d h
    exact maskWriteRegister_exc ds d h
  · intro ds d h
    exact (readWriteMultipleRegisters_exc ds).1 d h
  · intro ds a1 a0 q1 q0 rest h
    exact ⟨(readCoils_exc ds).2.1 a1 a0 q1 q0 rest h,
      (readDiscreteInputs_exc ds).2.1 a1 a0 q1 q0 rest h⟩
  · intro ds a1 a0 q1 q0 rest h
    exact ⟨(readHoldingRegisters_exc ds).2.1 a1 a0 q1 q0 rest h,
      (readInputRegisters_exc ds).2.1 a1 a0 q1 q0 rest h⟩
  · intro ds a1 a0 q1 q0 bc rest h
    exact (writeMultipleCoils_exc ds).2.1 a1 a0 q1 q0 bc rest h
  · intro ds a1 a0 q1 q0 bc rest h
    exact (writeMultipleRegisters_exc ds).2.1 a1 a0 q1 q0 bc rest h
  · intro ds ra1 ra0 rq1 rq0 wa1 wa0 wq1 wq0 bc rest h
    exact (readWriteMultipleRegisters_exc ds).2.1 ra1 ra0 rq1 rq0 wa1 wa0 wq1 wq0 bc rest h
  · intro ds ra1 ra0 rq1 rq0 wa1 wa0 wq1 wq0 bc rest h1 h2 h3
    exact (readWriteMultipleRegisters_exc ds).2.2.1 ra1 ra0 rq1 rq0 wa1 wa0 wq1 wq0 bc rest
      h1 h2 h3
  · intro ds a1 a0 q1 q0 rest h1 h2 h3
    exact ⟨(readCoils_exc ds).2.2 a1 a0 q1 q0 rest h1 h2 h3,
      (readDiscreteInputs_exc ds).2.2 a1 a0 q1 q0 rest h1 h2 h3⟩
  · intro ds a1 a0 q1 q0 rest h1 h2 h3
    exact ⟨(readHoldingRegisters_exc ds).2.2 a1 a0 q1 q0 rest h1 h2 h3,
      (readInputRegisters_exc ds).2.2 a1 a0 q1 q0 rest h1 h2 h3⟩
  · intro ds a1 a0 q1 q0 rest h1 h2 h3 h4
    exact (writeMultipleCoils_exc ds).2.2 a1 a0 q1 q0 rest h1 h2 h3 h4
  · intro ds a1 a0 q1 q0 rest h1 h2 h3 h4
    exact (writeMultipleRegisters_exc ds).2.2 a1 a0 q1 q0 rest h1 h2 h3 h4
  · intro ds ra1 ra0 rq1 rq0 wa1 wa0 wq1 wq0 rest h1 h2 h3 h4 h5 h6
    exact (readWriteMultipleRegisters_exc ds).2.2.2.1 ra1 ra0 rq1 rq0 wa1 wa0 wq1 wq0 rest
      h1 h2 h3 h4 h5 h6
  · intro ds ra1 ra0 rq1 rq0 wa1 wa0 wq1 wq0 rest h1 h2 h3 h4 h5 h6 h7
    exact (readWriteMultipleRegisters_exc ds).2.2.2.2 ra1 ra0 rq1 rq0 wa1 wa0 wq1 wq0 rest
      h1 h2 h3 h4 h5 h6 h7
  · intro ds req
    exact shape_HandleRequest ds req

/-- Witness for C4: an empty ReadCoils payload yields IllegalDataValue, and a
ReadHoldingRegisters request past the end of the address space yields
IllegalDataAddress. -/
theorem dispatcher_validation_witness :
    (HandleRequest exampleStore ⟨1, []⟩).1 = newExceptionResponse 1 3 ∧
    (HandleRequest exampleStore ⟨3, [255, 255, 0, 2]⟩).1 = newExceptionResponse 3 2 :=
  ⟨dispatcher_validation.1 exampleStore 1 [] (Or.inl rfl) (by decide),
   (dispatcher_validation.2.2.2.2.2.2.2.2.2.2.2.1 exampleStore 255 255 0 2 []
     (by decide) (by decide) (by decide)).1⟩

/-! ## Claim C1 -/

theorem ite_pos_eq_max (q : ℚ) : (if q > 0 then q else 0) = max 0 q := by
  rcases le_or_lt q 0 with h | h
  · rw [if_neg (not_lt.2 h), max_eq_left h]
  · rw [if_pos h, max_eq_right h.le]

theorem ite_clamp_eq_max (q : ℚ) :
    (if (if q < 0 then 0 else q) > 0 then (if q < 0 then 0 else q) else 0) = max 0 q := by
  by_cases hneg : q < 0
  · rw [if_pos hneg]
    rw [if_neg (by norm_num), max_eq_left hneg.le]
  · rw [if_neg hneg]
    exact ite_pos_eq_max q

/-- Claim C1: the server's delay/timeout injection.  Resolution prefers the
per-address policy; when the resolved policy's timeout probability triggers
(`rand < p`, with timeouts enabled as on TCP) the dispatcher produces the
"no response" sentinel and the TCP server suppresses its write — in
particular a per-address `timeoutProbability = 1.0` on a holding register
suppresses every TCP read of that address, since the random sample always
lies in `[0, 1)`; RTU/ASCII (`disableTimeout = true`) never get the
sentinel; otherwise the dispatcher sleeps the base delay perturbed by
`±jitter_percent` (clamped at 0) and answers with the handler's response. -/
theorem delay_timeout_injection_spec :
    (∀ (ds : DataStore) (s : DelayConfigSet) (address : Nat) (cfg : DelayConfig),
      ds.delayConfig = some s → s.holdingRegs address = some cfg →
      GetDelayConfig ds .holdingReg address = some cfg) ∧
    (∀ (ds : DataStore) (req : PDU) (rt : RegisterType) (cfg : DelayConfig) (rT rJ : ℚ),
      requestRegType req.functionCode = some rt →
      GetDelayConfig ds rt (be16 (req.data.getD 0 0) (req.data.getD 1 0)) = some cfg →
      cfg.timeoutProbability > 0 → rT < cfg.timeoutProbability →
      (HandleRequestWithDelay ds false rT rJ req).1 = none ∧
      ∀ tid pid uid : Nat,
        tcpServerResponse tid pid uid (HandleRequestWithDelay ds false rT rJ req).1 = none) ∧
    (∀ (ds : DataStore) (s : DelayConfigSet) (a1 a0 : Nat) (rest : List Nat) (rT rJ : ℚ),
      ds.delayConfig = some s → s.holdingRegs (be16 a1 a0) = some ⟨none, 0, 1⟩ →
      0 ≤ rT → rT < 1 →
      (HandleRequestWithDelay ds false rT rJ ⟨3, a1 :: a0 :: rest⟩).1 = none) ∧
    (∀ (cfg? : Option DelayConfig) (rT rJ : ℚ),
      (ApplyDelayWithOptions cfg? true rT rJ).1 = true) ∧
    (∀ (cfg : DelayConfig) (disableTimeout : Bool) (rT rJ base : ℚ),
      ¬(¬disableTimeout ∧ cfg.timeoutProbability > 0 ∧ rT < cfg.timeoutProbability) →
      cfg.delay = some base →
      (0 < cfg.jitter ∧ cfg.jitter ≤ 100 →
        ApplyDelayWithOptions (some cfg) disableTimeout rT rJ
          = (true, max 0 (base + (rJ * 2 - 1) * (base * ((cfg.jitter : ℚ) / 100))))) ∧
      (¬(0 < cfg.jitter ∧ cfg.jitter ≤ 100) →
        ApplyDelayWithOptions (some cfg) disableTimeout rT rJ = (true, max 0 base))) ∧
    (∀ (ds : DataStore) (dt : Bool) (rT rJ : ℚ) (req : PDU),
      (ApplyDelayWithOptions
        (match requestRegType req.functionCode with
          | none => none
          | some rt => GetDelayConfig ds rt (be16 (req.data.getD 0 0) (req.data.getD 1 0)))
        dt rT rJ).1 = true →
      HandleRequestWithDelay ds dt rT rJ req
        = (some (HandleRequest ds req).1,
           (ApplyDelayWithOptions
             (match requestRegType req.functionCode with
               | none => none
               | some rt =>
                 GetDelayConfig ds rt (be16 (req.data.getD 0 0) (req.data.getD 1 0)))
             dt rT rJ).2,
           (HandleRequest ds req).2)) := by
  refine ⟨?_, ?_, ?_, ?_, ?_, ?_⟩
  · intro ds s address cfg hds hs
    unfold GetDelayConfig
    rw [hds]
    simp [hs]
  · intro ds req rt cfg rT rJ hrt hcfg hp hr
    have houtcome : ApplyDelayWithOptions (GetDelayConfig ds rt
        (be16 (req.data.getD 0 0) (req.data.getD 1 0))) false rT rJ = (false, 0) := by
      rw [hcfg]
      simp only [ApplyDelayWithOptions]
      rw [if_pos ⟨by simp, hp, hr⟩]
    have hmain : (HandleRequestWithDelay ds false rT rJ req).1 = none := by
      simp only [HandleRequestWithDelay, hrt, houtcome]
      rfl
    exact ⟨hmain, fun tid pid uid => by rw [hmain]; rfl⟩
  · intro ds s a1 a0 rest rT rJ hds hs h0 h1
    have hcfg : GetDelayConfig ds .holdingReg (be16 a1 a0)
        = some ⟨none, (0 : Int), (1 : ℚ)⟩ := by
      unfold GetDelayConfig
      rw [hds]
      simp [hs]
    have hrt : requestRegType (⟨3, a1 :: a0 :: rest⟩ : PDU).functionCode
        = some .holdingReg := rfl
    have houtcome : ApplyDelayWithOptions
        (GetDelayConfig ds .holdingReg (be16 a1 a0)) false rT rJ = (false, 0) := by
      rw [hcfg]
      simp only [ApplyDelayWithOptions]
      rw [if_pos ⟨by simp, by norm_num, by simpa using h1⟩]
    simp only [HandleRequestWithDelay, hrt, List.getD_cons_succ, List.getD_cons_zero,
      houtcome]
    rfl
  · intro cfg? rT rJ
    match cfg? with
    | none => rfl
    | some cfg =>
        simp only [ApplyDelayWithOptions]
        rw [if_neg (by simp)]
        cases hd : cfg.delay <;> simp [hd]
  · intro cfg disableTimeout rT rJ base hno hdel
    constructor
    · intro hj
      simp only [ApplyDelayWithOptions]
      rw [if_neg hno]
      simp only [hdel]
      simp only [if_pos hj]
      rw [Prod.mk.injEq]
      exact ⟨rfl, ite_clamp_eq_max _⟩
    · intro hj
      simp only [ApplyDelayWithOptions]
      rw [if_neg hno]
      simp only [hdel]
      simp only [if_neg hj]
      rw [Prod.mk.injEq]
      exact ⟨rfl, ite_pos_eq_max _⟩
  · intro ds dt rT rJ req h
    simp only [HandleRequestWithDelay]
    rw [if_pos h]

/-- Witness for C1: the per-address policy `timeoutProbability = 1.0` on
holding register 200 makes a TCP ReadHoldingRegisters of address 200 produce
the no-response sentinel. -/
theorem delay_timeout_injection_witness :
    (HandleRequestWithDelay exampleDelayStore false (1 / 2) (1 / 3)
      ⟨3, [0, 200, 0, 1]⟩).1 = none :=
  delay_timeout_injection_spec.2.2.1 exampleDelayStore
    ⟨fun _ => none, fun _ => none, fun _ => none,
      fun a => if a = 200 then some ⟨none, 0, 1⟩ else none, fun _ => none⟩
    0 200 [0, 1] (1 / 2) (1 / 3) rfl (by norm_num [be16]) (by norm_num) (by norm_num)

end Modbus
